import Mathlib

/-!
# WaveNode telemetry core: hold/latch engine and derived metrics

A shallow embedding of `src/hooks/useWaveNode.js` (normalisation, the per-poll
hold logic, the polling effect with its failure path, `resetMeter`) and of
`src/components/WaveNodePanel.jsx` (`swrTone`, `isActive`, `worstSWR`,
`hasReflected`, the SWR latch of `MeterCard`).

Modelling conventions.

* A JavaScript number is a `JSNum`: `NaN`, `+Infinity`, `-Infinity`, or a finite
  value given as a rational (every double is one; the sign of zero is not
  modelled). Comparisons and `Math.max` are exact in IEEE arithmetic. The one
  rounded operation of the code, the product `limit * 0.7`, is computed as in
  binary64: the exact product with the double nearest to 0.7, rounded to the
  nearest double, ties to even (`JSNum.roundDouble`).
* Any other JavaScript value is a `JSVal`; a decoded JSON payload is a `JSVal`.
* The arrays inside a snapshot are lists, as `norm4` builds them; the six arrays
  of the hold record are always four slots holding booleans or numbers, and
  are modelled as functions on `Fin 4`.
-/

namespace WaveNode

/-! ## Numbers and values -/

/-- A JavaScript number. -/
inductive JSNum where
  | nan
  | pinf
  | ninf
  | fin (q : ℚ)
  deriving DecidableEq

namespace JSNum

/-- The relation `a <= b` of JavaScript: false as soon as an operand is `NaN`. -/
def le : JSNum → JSNum → Bool
  | nan, _ => false
  | _, nan => false
  | ninf, _ => true
  | _, pinf => true
  | fin a, fin b => decide (a ≤ b)
  | _, _ => false

/-- The relation `a < b` of JavaScript: false as soon as an operand is `NaN`. -/
def lt : JSNum → JSNum → Bool
  | nan, _ => false
  | _, nan => false
  | fin a, fin b => decide (a < b)
  | ninf, ninf => false
  | ninf, _ => true
  | pinf, _ => false
  | fin _, pinf => true
  | fin _, ninf => false

/-- The relation `a >= b`. -/
def ge (a b : JSNum) : Bool := le b a

/-- The relation `a > b`. -/
def gt (a b : JSNum) : Bool := lt b a

/-- The function `Math.max(a, b)`: `NaN` if an operand is `NaN`, else the larger. -/
def mathMax : JSNum → JSNum → JSNum
  | nan, _ => nan
  | _, nan => nan
  | a, b => if lt a b then b else a

/-- The function `Math.min(a, b)`: `NaN` if an operand is `NaN`, else the smaller. -/
def mathMin : JSNum → JSNum → JSNum
  | nan, _ => nan
  | _, nan => nan
  | a, b => if lt b a then b else a

/-- The test `Number.isFinite(a)` on a number. -/
def isFinite : JSNum → Bool
  | fin _ => true
  | _ => false

/-- Truthiness of a number: everything but `0` and `NaN`. -/
def truthy : JSNum → Bool
  | nan => false
  | fin q => decide (q ≠ 0)
  | _ => true

/-- The double written `0.7`: the binary64 number nearest to 7/10, which is
`0x1.6666666666666p-1 = 3152519739159347 / 2^52`. -/
def dbl07 : ℚ := mkRat 3152519739159347 4503599627370496

/-- Rounding to the nearest integer, ties to the even one. -/
def roundHalfEven (y : ℚ) : Int :=
  let n := ⌊y⌋
  let f := y - n
  if f < 1 / 2 then n
  else if 1 / 2 < f then n + 1
  else if n % 2 = 0 then n
  else n + 1

/-- The exponent of the unit in the last place of the doubles next to `x`: 52
below the binary exponent of `x`, and -1074 throughout the subnormal range. -/
def ulpExp (x : ℚ) : Int := max (Int.log 2 |x|) (-1022) - 52

/-- The binary64 value of the real number `x`, rounding to nearest, ties to even:
`x` is rounded to a multiple of its unit in the last place, and a result of
magnitude `2^1024` or more is an infinity. -/
def roundDouble (x : ℚ) : JSNum :=
  if x = 0 then fin 0
  else
    let r : ℚ := (roundHalfEven (x / 2 ^ ulpExp x) : ℚ) * 2 ^ ulpExp x
    if (2 : ℚ) ^ (1024 : Int) ≤ |r| then (if 0 < x then pinf else ninf)
    else fin r

/-- The product `a * 0.7` in binary64. -/
def mul07 : JSNum → JSNum
  | nan => nan
  | pinf => pinf
  | ninf => ninf
  | fin q => roundDouble (q * dbl07)

end JSNum

/-- A JavaScript value, as far as the code distinguishes them. An object is the
list of its own properties; a lookup takes the first entry with the key. -/
inductive JSVal where
  | undefined
  | null
  | bool (b : Bool)
  | num (n : JSNum)
  | str (s : String)
  | arr (xs : List JSVal)
  | obj (fields : List (String × JSVal))

namespace JSVal

/-- The property read `v.k` for a value that is not `null`/`undefined`. Only
objects carry the properties the code reads (`values`, `avgWatts`, ...):
a primitive has none of them, and an array has none of the fields read from
`v`; the only one of these names an array does have is the built-in method
`values`, a function from which every later field read is `undefined`, the
same as from the empty object taken here. -/
def getProp (v : JSVal) (k : String) : JSVal :=
  match v with
  | obj fields =>
    match fields.find? (fun kv => kv.1 == k) with
    | some kv => kv.2
    | none => undefined
  | _ => undefined

/-- The optional read `v?.k`. -/
def optProp (v : JSVal) (k : String) : JSVal :=
  match v with
  | undefined => undefined
  | null => undefined
  | _ => getProp v k

/-- The truthiness `!!v`. -/
def truthy : JSVal → Bool
  | undefined => false
  | null => false
  | bool b => b
  | num n => n.truthy
  | str s => decide (s ≠ "")
  | arr _ => true
  | obj _ => true

/-- The operator `a || b`. -/
def or (a b : JSVal) : JSVal := if a.truthy then a else b

/-- The operator `a ?? b`. -/
def nullish (a b : JSVal) : JSVal :=
  match a with
  | undefined => b
  | null => b
  | _ => a

/-- The element read `a[i]` on an array; `undefined` past the end. -/
def index (xs : List JSVal) (i : Nat) : JSVal := xs.getD i undefined

end JSVal

/-! ## Normalisation (`useWaveNode.js`, `norm4` and the `snap` literal) -/

/-- The function `norm4(a, fill)`. The result holds numbers taken from `a` and
copies of `fill`; `ofNum` is the inclusion of numbers in the element type of
the result (`JSVal.num` for an arbitrary `fill`, the identity for the numeric
sentinel `-1`, `some` for the `null` fill of the reflected arrays).

    const out = [fill, fill, fill, fill];
    if (Array.isArray(a)) {
      for (let i = 0; i < 4; i++) out[i] = typeof a[i] === 'number' ? a[i] : fill;
    }
    return out; -/
def norm4 {α : Type} (ofNum : JSNum → α) (a : JSVal) (fill : α) : List α :=
  let out := [fill, fill, fill, fill]
  match a with
  | JSVal.arr xs =>
    (List.range 4).foldl
      (fun out i =>
        out.set i (match JSVal.index xs i with
                   | JSVal.num n => ofNum n
                   | _ => fill))
      out
  | _ => out

/-- The scalar rule `typeof x === 'number' ? x : -1`. -/
def numOr (x : JSVal) (fill : JSNum) : JSNum :=
  match x with
  | JSVal.num n => n
  | _ => fill

/-- The record `snap.values`. The reflected arrays hold a number or `null`. -/
structure Values where
  avgWatts : List JSNum
  peakWatts : List JSNum
  swr : List JSNum
  dcVolts : JSNum
  dcAmps : JSNum
  aux : List JSNum
  swrTripped : Bool
  rfdAvgWatts : List (Option JSNum)
  rfdPeakWatts : List (Option JSNum)

/-- The record `snap`. -/
structure Snapshot where
  lastSeenUtc : JSVal
  stale : Bool
  values : Values

/-- The normalisation of a decoded payload `j` (the `snap` literal of `tick`). -/
def normalize (j : JSVal) : Snapshot :=
  let v := JSVal.or (JSVal.optProp j "values") (JSVal.obj [])
  { lastSeenUtc := JSVal.nullish (JSVal.optProp j "lastSeenUtc") JSVal.null
    stale := (JSVal.optProp j "stale").truthy
    values :=
      { avgWatts := norm4 id (v.getProp "avgWatts") (JSNum.fin (-1))
        peakWatts := norm4 id (v.getProp "peakWatts") (JSNum.fin (-1))
        swr := norm4 id (v.getProp "swr") (JSNum.fin (-1))
        dcVolts := numOr (v.getProp "dcVolts") (JSNum.fin (-1))
        dcAmps := numOr (v.getProp "dcAmps") (JSNum.fin (-1))
        aux := norm4 id (v.getProp "aux") (JSNum.fin (-1))
        swrTripped := (v.getProp "swrTripped").truthy
        rfdAvgWatts := norm4 some (v.getProp "rfdAvgWatts") none
        rfdPeakWatts := norm4 some (v.getProp "rfdPeakWatts") none } }

/-! ## The hold engine (`useWaveNode.js`, `holdRef`, `tick`, `resetMeter`) -/

/-- The constant `DEFAULTS.rfThresholdWatts`. -/
def defaultRfThresholdWatts : JSNum := JSNum.fin 1

/-- The constant `DEFAULTS.pollMs`. -/
def defaultPollMs : JSNum := JSNum.fin 200

/-- The preferences read by the polling effect; the numeric ones are numbers. -/
structure Prefs where
  pollMs : JSNum
  holdEnabled : Bool
  rfThresholdWatts : JSNum

/-- The record `holdRef.current`: four slots per array. Every write to `active`
and `latched` is a boolean and every write to the four buffers is a number,
so a slot is never `undefined` and `hr.peakWatts[i] ?? -1` is `hr.peakWatts[i]`. -/
structure HoldState where
  active : Fin 4 → Bool
  latched : Fin 4 → Bool
  avgWatts : Fin 4 → JSNum
  peakWatts : Fin 4 → JSNum
  rfdAvgWatts : Fin 4 → JSNum
  rfdPeakWatts : Fin 4 → JSNum

/-- The initial value of `holdRef`, also assigned when hold is disabled. -/
def HoldState.init : HoldState :=
  { active := fun _ => false
    latched := fun _ => false
    avgWatts := fun _ => JSNum.fin (-1)
    peakWatts := fun _ => JSNum.fin (-1)
    rfdAvgWatts := fun _ => JSNum.fin (-1)
    rfdPeakWatts := fun _ => JSNum.fin (-1) }

/-- The threshold `thr` of `tick` (and `rfThr` of the panel):
`Math.max(0, Number(prefs.rfThresholdWatts) || DEFAULTS.rfThresholdWatts)`. -/
def effThreshold (t : JSNum) : JSNum :=
  JSNum.mathMax (JSNum.fin 0) (if t.truthy then t else defaultRfThresholdWatts)

/-- The reading `avg` of the loop body: `snap.values.avgWatts[i] ?? -1`. -/
def curAvg (v : Values) (i : Fin 4) : JSNum := (v.avgWatts[i.val]?).getD (JSNum.fin (-1))

/-- The reading `pk` of the loop body: `snap.values.peakWatts[i] ?? -1`. -/
def curPeak (v : Values) (i : Fin 4) : JSNum := (v.peakWatts[i.val]?).getD (JSNum.fin (-1))

/-- The flag `isActive` of the loop body: `typeof avg === 'number' && avg >= thr`. -/
def holdIsActive (thr : JSNum) (v : Values) (i : Fin 4) : Bool := (curAvg v i).ge thr

/-- One iteration of the loop `for (let i = 0; i < 4; i++)` of the hold logic,
acting on the hold record and on the values of the snapshot being built. -/
def holdStep (thr : JSNum) (st : HoldState × Values) (i : Fin 4) : HoldState × Values :=
  let hr := st.1
  let v := st.2
  let avg := curAvg v i
  let pk := curPeak v i
  -- `rAvg`, `rPk`: a number, or `null`/`undefined` (both fail `typeof === 'number'`)
  let rAvg : Option JSNum := (v.rfdAvgWatts[i.val]?).join
  let rPk : Option JSNum := (v.rfdPeakWatts[i.val]?).join
  let isActive := holdIsActive thr v i
  -- Transition: inactive -> active => clear latch
  let hr := if isActive && !hr.active i then
      { hr with latched := Function.update hr.latched i false } else hr
  -- While active, update hold buffers
  let hr := if isActive then
      { hr with
        avgWatts := Function.update hr.avgWatts i avg
        peakWatts := Function.update hr.peakWatts i (JSNum.mathMax (hr.peakWatts i) pk)
        rfdAvgWatts :=
          match rAvg with
          | some r => Function.update hr.rfdAvgWatts i r
          | none => hr.rfdAvgWatts
        rfdPeakWatts :=
          match rPk with
          | some r => Function.update hr.rfdPeakWatts i (JSNum.mathMax (hr.rfdPeakWatts i) r)
          | none => hr.rfdPeakWatts }
    else hr
  -- Transition: active -> inactive => latch
  let hr := if !isActive && hr.active i then
      { hr with latched := Function.update hr.latched i true } else hr
  let hr := { hr with active := Function.update hr.active i isActive }
  -- If latched, override displayed values with held values
  let v := if hr.latched i then
      { v with
        avgWatts := v.avgWatts.set i.val (hr.avgWatts i)
        peakWatts := v.peakWatts.set i.val (hr.peakWatts i)
        rfdAvgWatts := v.rfdAvgWatts.set i.val (some (hr.rfdAvgWatts i))
        rfdPeakWatts := v.rfdPeakWatts.set i.val (some (hr.rfdPeakWatts i)) }
    else v
  (hr, v)

/-- The block `// Apply hold logic` of `tick`: the new hold record and the
values of the snapshot that is published. -/
def applyHold (prefs : Prefs) (hr : HoldState) (v : Values) : HoldState × Values :=
  if prefs.holdEnabled then
    let thr := effThreshold prefs.rfThresholdWatts
    ([0, 1, 2, 3] : List (Fin 4)).foldl (holdStep thr) (hr, v)
  else
    -- reset hold buffers when disabled
    (HoldState.init, v)

/-- The state of the hook: the three `useState` cells and `holdRef.current`. -/
structure HookState where
  data : Option Snapshot
  error : Option String
  connected : Bool
  hold : HoldState

/-- The state of the hook before the first poll. -/
def HookState.init : HookState :=
  { data := none, error := none, connected := false, hold := HoldState.init }

/-- The function `tick` on the path where the fetch succeeded with decoded body
`j` and the effect is alive. -/
def tickSuccess (prefs : Prefs) (j : JSVal) (s : HookState) : HookState :=
  let snap := normalize j
  let r := applyHold prefs s.hold snap.values
  { data := some { snap with values := r.2 }
    error := none
    connected := true
    hold := r.1 }

/-- The inner function `resetOne(i)` of `resetMeter`. -/
def resetOne (i : Int) (hr : HoldState) : HoldState :=
  if h : 0 ≤ i ∧ i ≤ 3 then
    let k : Fin 4 := ⟨i.toNat, by omega⟩
    { active := Function.update hr.active k false
      latched := Function.update hr.latched k false
      avgWatts := Function.update hr.avgWatts k (JSNum.fin (-1))
      peakWatts := Function.update hr.peakWatts k (JSNum.fin (-1))
      rfdAvgWatts := Function.update hr.rfdAvgWatts k (JSNum.fin (-1))
      rfdPeakWatts := Function.update hr.rfdPeakWatts k (JSNum.fin (-1)) }
  else hr

/-- The function `Math.trunc` on a finite number. -/
def mathTrunc (q : ℚ) : Int := if q < 0 then ⌈q⌉ else ⌊q⌋

/-- The callback `resetMeter(idx)`: a finite number resets the slot
`Math.max(0, Math.min(3, Math.trunc(idx)))`, anything else resets all four. -/
def resetMeter (idx : JSVal) (s : HookState) : HookState :=
  match idx with
  | JSVal.num (JSNum.fin q) =>
    { s with hold := resetOne (max 0 (min 3 (mathTrunc q))) s.hold }
  | _ =>
    { s with hold := ([0, 1, 2, 3] : List Int).foldl (fun hr i => resetOne i hr) s.hold }

/-- The hold record after a sequence of successful polls, each with the
preferences in force and the decoded payload. -/
def runPolls (s : HookState) (ps : List (Prefs × JSVal)) : HookState :=
  ps.foldl (fun s p => tickSuccess p.1 p.2 s) s

/-! ## Derived metrics (`WaveNodePanel.jsx`) -/

/-- The predicate `isActive(i)` of the panel, with `values = data?.values` and
`rfSenseIdx = 0`. -/
def isActive (values : Option Values) (rfThr : JSNum) (i : Nat) : Bool :=
  let sense : Option JSNum := values.bind (fun v => v.avgWatts[0]?)
  let senseOn :=
    match sense with
    | some s => s.ge rfThr
    | none => false
  if i = 0 then
    match values.bind (fun v => v.avgWatts[i]?) with
    | some a => a.ge rfThr
    | none => false
  else senseOn

/-- The body of the loop of `worstSWR` for index `i`, on the running value `w`. -/
def worstStep (values : Option Values) (swr : List JSNum) (rfThr : JSNum)
    (w : Option JSNum) (i : Nat) : Option JSNum :=
  if !isActive values rfThr i then w
  else
    match swr[i]? with
    | none => w
    | some s =>
      if !s.isFinite || s.lt (JSNum.fin 0) then w
      else
        match w with
        | none => some s
        | some w0 => if s.gt w0 then some s else w

/-- The memo `worstSWR`; `none` is `null`. -/
def worstSWR (values : Option Values) (rfThr : JSNum) : Option JSNum :=
  match values with
  | none => none
  | some v => ([0, 1, 2, 3] : List Nat).foldl (worstStep values v.swr rfThr) none

/-- The function `swrTone(swr, limit = 3.0)`; `limit` is `none` when the
argument is omitted or `undefined`, and a number otherwise. -/
def swrTone (swr : JSVal) (limit : Option JSNum) : String :=
  let limit := limit.getD (JSNum.fin 3)
  match swr with
  | JSVal.num s =>
    if !s.isFinite || s.lt (JSNum.fin 0) then "muted"
    else if s.ge limit then "bad"
    else if s.ge (JSNum.mathMax (JSNum.fin (3 / 2)) limit.mul07) then "warn"
    else "good"
  | _ => "muted"

/-- The function `clamp(v, a, b)`: `Math.max(a, Math.min(b, v))`. -/
def clamp (v a b : JSNum) : JSNum := JSNum.mathMax a (JSNum.mathMin b v)

/-! ## Auxiliary definitions used in the statements -/

/-- The entry that `norm4(a, fill)` is to hold at position `i`: `a[i]` when `a`
is an array and `a[i]` is a number, `fill` otherwise. -/
def norm4Entry {α : Type} (ofNum : JSNum → α) (a : JSVal) (fill : α) (i : Nat) : α :=
  match a with
  | JSVal.arr xs =>
    match xs[i]? with
    | some (JSVal.num n) => ofNum n
    | _ => fill
  | _ => fill

/-- Everything the loop body of the hold logic reads or writes for channel `i`:
the six slots of the hold record and the four array slots of the snapshot. -/
structure ChanView where
  active : Bool
  latched : Bool
  avg : JSNum
  peak : JSNum
  rAvg : JSNum
  rPeak : JSNum
  sAvg : Option JSNum
  sPeak : Option JSNum
  sRAvg : Option (Option JSNum)
  sRPeak : Option (Option JSNum)

/-- The slots of channel `i` in a hold record and a snapshot. -/
def chanView (st : HoldState × Values) (i : Fin 4) : ChanView :=
  { active := st.1.active i
    latched := st.1.latched i
    avg := st.1.avgWatts i
    peak := st.1.peakWatts i
    rAvg := st.1.rfdAvgWatts i
    rPeak := st.1.rfdPeakWatts i
    sAvg := st.2.avgWatts[i.val]?
    sPeak := st.2.peakWatts[i.val]?
    sRAvg := st.2.rfdAvgWatts[i.val]?
    sRPeak := st.2.rfdPeakWatts[i.val]? }

/-- The effect of one iteration of the hold loop on the slots of its own channel. -/
def chanStep (thr : JSNum) (c : ChanView) : ChanView :=
  let avg := c.sAvg.getD (JSNum.fin (-1))
  let pk := c.sPeak.getD (JSNum.fin (-1))
  let act := avg.ge thr
  let latched1 := if act && !c.active then false else c.latched
  let latched2 := if !act && c.active then true else latched1
  let hAvg := if act then avg else c.avg
  let hPeak := if act then JSNum.mathMax c.peak pk else c.peak
  let hRAvg := if act then (c.sRAvg.join).getD c.rAvg else c.rAvg
  let hRPeak :=
    if act then
      match c.sRPeak.join with
      | some r => JSNum.mathMax c.rPeak r
      | none => c.rPeak
    else c.rPeak
  { active := act
    latched := latched2
    avg := hAvg
    peak := hPeak
    rAvg := hRAvg
    rPeak := hRPeak
    sAvg := if latched2 then c.sAvg.map (fun _ => hAvg) else c.sAvg
    sPeak := if latched2 then c.sPeak.map (fun _ => hPeak) else c.sPeak
    sRAvg := if latched2 then c.sRAvg.map (fun _ => some hRAvg) else c.sRAvg
    sRPeak := if latched2 then c.sRPeak.map (fun _ => some hRPeak) else c.sRPeak }

/-- Whether channel `i` is active in the hold step of a poll with preferences
`p.1` and decoded payload `p.2`. -/
def pollActive (p : Prefs × JSVal) (i : Fin 4) : Bool :=
  holdIsActive (effThreshold p.1.rfThresholdWatts) (normalize p.2).values i

/-- The displayed average power of channel `i`: `data?.values?.avgWatts?.[i]`. -/
def effAvg (s : HookState) (i : Fin 4) : Option JSNum :=
  s.data.bind (fun d => d.values.avgWatts[i.val]?)

/-- The displayed peak power of channel `i`: `data?.values?.peakWatts?.[i]`. -/
def effPeak (s : HookState) (i : Fin 4) : Option JSNum :=
  s.data.bind (fun d => d.values.peakWatts[i.val]?)

/-- A payload `{ values: { avgWatts, peakWatts, swr } }` with the given finite
readings. -/
def payloadOf (avg peak swr : List ℚ) : JSVal :=
  JSVal.obj [("values", JSVal.obj
    [("avgWatts", JSVal.arr (avg.map (fun q => JSVal.num (JSNum.fin q)))),
     ("peakWatts", JSVal.arr (peak.map (fun q => JSVal.num (JSNum.fin q)))),
     ("swr", JSVal.arr (swr.map (fun q => JSVal.num (JSNum.fin q))))])]

/-- Preferences with hold enabled and the default threshold of 1 W. -/
def holdOnPrefs : Prefs :=
  { pollMs := JSNum.fin 200, holdEnabled := true, rfThresholdWatts := JSNum.fin 1 }

/-- Two polls on channel 0: a transmission at 50 W (peak 100 W), then silence. -/
def keyThenUnkey : List (Prefs × JSVal) :=
  [(holdOnPrefs, payloadOf [50, 0, 0, 0] [100, 0, 0, 0] [2, 0, 0, 0]),
   (holdOnPrefs, payloadOf [0, 0, 0, 0] [0, 0, 0, 0] [0, 0, 0, 0])]

/-- A third poll after `keyThenUnkey`: channel 0 transmits again, at 5 W with a
peak of 5 W. -/
def keyAgain : Prefs × JSVal :=
  (holdOnPrefs, payloadOf [5, 0, 0, 0] [5, 0, 0, 0] [1, 0, 0, 0])

/-- Preferences with hold disabled and the default threshold of 1 W. -/
def holdOffPrefs : Prefs :=
  { pollMs := JSNum.fin 200, holdEnabled := false, rfThresholdWatts := JSNum.fin 1 }

/-- The SWR that channel `i` contributes to `worstSWR`: a value `q` when the
channel is active under the panel's predicate and its SWR is the finite
number `q >= 0`; nothing otherwise. -/
def swrCandidate (values : Option Values) (rfThr : JSNum) (i : Nat) : Option ℚ :=
  match values with
  | none => none
  | some v =>
    if isActive values rfThr i then
      match v.swr[i]? with
      | some (JSNum.fin q) => if 0 ≤ q then some q else none
      | _ => none
    else none

/-- The values of the snapshot of a payload that reports 5 W on channel 0 and no
SWR at all. -/
def activeNoSwr : Values :=
  (normalize (JSVal.obj [("values", JSVal.obj
    [("avgWatts", JSVal.arr [JSVal.num (JSNum.fin 5), JSVal.num (JSNum.fin 0),
        JSVal.num (JSNum.fin 0), JSVal.num (JSNum.fin 0)])])])).values

/-- Three polls in which channel 0 stays silent while channel 1 transmits at 5 W
(peak 7 W), falls silent, and transmits again at 9 W (peak 12 W). -/
def senseOffOtherOn : List (Prefs × JSVal) :=
  [(holdOnPrefs, payloadOf [0, 5, 0, 0] [0, 7, 0, 0] [0, 2, 0, 0]),
   (holdOnPrefs, payloadOf [0, 0, 0, 0] [0, 0, 0, 0] [0, 0, 0, 0]),
   (holdOnPrefs, payloadOf [0, 9, 0, 0] [0, 12, 0, 0] [0, 2, 0, 0])]

/-! ## The polling effect (`useWaveNode.js`, the second `useEffect`) -/

/-- The threshold `rfThr` of the panel:
`Math.max(0, Number(prefs.rfThresholdWatts) || defaults.rfThresholdWatts)`,
where `defaults` is the `DEFAULTS` record returned by the hook. -/
def panelRfThr (t : JSNum) : JSNum :=
  JSNum.mathMax (JSNum.fin 0) (if t.truthy then t else defaultRfThresholdWatts)

/-- The period given to `setInterval`:
`Math.max(100, Number(prefs.pollMs) || DEFAULTS.pollMs)`. -/
def pollPeriod (p : JSNum) : JSNum :=
  JSNum.mathMax (JSNum.fin 100) (if p.truthy then p else defaultPollMs)

/-- The cells of one run of the polling effect: the flag `alive` and the timer
handle `t`, here the period of the running interval, `none` when no interval
is running. -/
structure Loop where
  alive : Bool
  timer : Option JSNum

/-- The body of the effect up to its `return`: `alive = true` and
`t = setInterval(tick, ...)`. -/
def startLoop (prefs : Prefs) : Loop :=
  { alive := true, timer := some (pollPeriod prefs.pollMs) }

/-- The cleanup function of the effect: `alive = false`, `ac.abort()`,
`clearInterval(t)`. -/
def stopLoop (_l : Loop) : Loop :=
  { alive := false, timer := none }

/-- A thrown `Error` object, by its `name` and `message`. -/
structure JSError where
  name : String
  message : String

/-- The text `String(e?.message || e)` for a thrown `Error`: the message when it
is not empty, and otherwise `String(e)`, which for an empty message is the
name. -/
def errorText (e : JSError) : String :=
  if e.message ≠ "" then e.message else e.name

/-- The ways the `try` block of `tick` can go: `fetch` rejects, the response is
not `ok`, `r.json()` rejects, or the body decodes to `j`. -/
inductive Outcome where
  | fetchRejected (e : JSError)
  | badStatus (status : Nat)
  | jsonRejected (e : JSError)
  | ok (j : JSVal)

/-- The value caught by the `catch` block, if the `try` block throws. -/
def Outcome.thrown : Outcome → Option JSError
  | Outcome.fetchRejected e => some e
  | Outcome.badStatus status => some { name := "Error", message := "HTTP " ++ toString status }
  | Outcome.jsonRejected e => some e
  | Outcome.ok _ => none

/-- The function `tick`, from the moment its request settles with outcome `o`:
the state of the hook and the cells of the effect afterwards. -/
def tick (prefs : Prefs) (o : Outcome) (st : HookState × Loop) : HookState × Loop :=
  let s := st.1
  let l := st.2
  match o with
  | Outcome.ok j =>
    if !l.alive then (s, l) else (tickSuccess prefs j s, l)
  | _ =>
    match o.thrown with
    | none => (s, l)
    | some e =>
      if !l.alive then (s, l)
      else if e.name == "AbortError" then (s, l)
      else ({ s with connected := false, error := some (errorText e) }, l)

/-- The handling of responses in the order in which they arrive: each arrival is
the request number of the poll it answers and the decoded body. The
continuation of `tick` applies every arrival; request numbers are not
consulted (the code keeps none). -/
def applyArrivals (prefs : Prefs) (st : HookState × Loop) (arrivals : List (Nat × JSVal)) :
    HookState × Loop :=
  arrivals.foldl (fun st a => tick prefs (Outcome.ok a.2) st) st

/-- What can happen to the hook: a poll settles, under the preferences and
effect cells in force, or `resetMeter(idx)` is called. -/
inductive Event where
  | poll (prefs : Prefs) (alive : Bool) (o : Outcome)
  | reset (idx : JSVal)

/-- The state of the hook after an event. -/
def applyEvent (s : HookState) (ev : Event) : HookState :=
  match ev with
  | Event.poll prefs alive o =>
    (tick prefs o (s, { alive := alive, timer := some (pollPeriod prefs.pollMs) })).1
  | Event.reset idx => resetMeter idx s

/-- The state of the hook after a sequence of events. -/
def runEvents (s : HookState) (evs : List Event) : HookState :=
  evs.foldl applyEvent s

/-! ## The SWR display latch (`WaveNodePanel.jsx`, `MeterCard`, `hasReflected`) -/

/-- The refs `swrHoldRef` and `swrWasActiveRef`; every write to the first is a
number. -/
structure SwrLatch where
  hold : Fin 4 → JSNum
  wasActive : Fin 4 → Bool

/-- The initial refs: `[0, 0, 0, 0]` and `[false, false, false, false]`. -/
def SwrLatch.init : SwrLatch :=
  { hold := fun _ => JSNum.fin 0, wasActive := fun _ => false }

/-- The conversion `Number(x)` for `x` a number or `undefined`. -/
def numberOf (x : Option JSNum) : JSNum := x.getD JSNum.nan

/-- The expression `h || 0` on a number. -/
def orZero (h : JSNum) : JSNum := if h.truthy then h else JSNum.fin 0

/-- The reading `rawSWR = Number(values?.swr?.[idx])`. -/
def rawSWR (values : Option Values) (idx : Fin 4) : JSNum :=
  numberOf (values.bind (fun v => v.swr[idx.val]?))

/-- The reading `fwd = Number(values?.avgWatts?.[idx])`. -/
def fwdPower (values : Option Values) (idx : Fin 4) : JSNum :=
  numberOf (values.bind (fun v => v.avgWatts[idx.val]?))

/-- The flag `swrActive`: `rfActive && Number.isFinite(rawSWR) && rawSWR >= 1`
with `rfActive = Number.isFinite(fwd) && fwd >= 2`. -/
def swrActive (values : Option Values) (idx : Fin 4) : Bool :=
  let rfActive := (fwdPower values idx).isFinite && (fwdPower values idx).ge (JSNum.fin 2)
  rfActive && (rawSWR values idx).isFinite && (rawSWR values idx).ge (JSNum.fin 1)

/-- The SWR part of one render of `MeterCard({ idx })`: the refs afterwards and
`displaySWR`. -/
def meterCardSwr (holdEnabled : Bool) (values : Option Values) (idx : Fin 4) (st : SwrLatch) :
    SwrLatch × JSNum :=
  let raw := rawSWR values idx
  let act := swrActive values idx
  let wasActive := st.wasActive idx
  let started := act && !wasActive
  let st := { st with wasActive := Function.update st.wasActive idx act }
  let st := if holdEnabled && started then
      { st with hold := Function.update st.hold idx (JSNum.fin 0) } else st
  let displaySWR := if act then raw else JSNum.fin (-1)
  if holdEnabled then
    if act then
      let st := { st with
        hold := Function.update st.hold idx (JSNum.mathMax (orZero (st.hold idx)) raw) }
      (st, st.hold idx)
    else if (orZero (st.hold idx)).gt (JSNum.fin 0) then (st, st.hold idx)
    else (st, displaySWR)
  else (st, displaySWR)

/-- The renders of `MeterCard({ idx })` for a sequence of values, one after the
other from given refs: the refs afterwards and the `displaySWR` of the last
render. -/
def renderAll (holdEnabled : Bool) (idx : Fin 4) (st : SwrLatch) (xs : List (Option Values)) :
    SwrLatch × Option JSNum :=
  xs.foldl (fun acc v =>
    ((meterCardSwr holdEnabled v idx acc.1).1, some (meterCardSwr holdEnabled v idx acc.1).2))
    (st, none)

/-- A reflected array of a snapshot as the JavaScript value it is. -/
def reflectedJS (xs : List (Option JSNum)) : JSVal :=
  JSVal.arr (xs.map (fun x =>
    match x with
    | some n => JSVal.num n
    | none => JSVal.null))

/-- The test `Array.isArray(x)`. -/
def isArray : JSVal → Bool
  | JSVal.arr _ => true
  | _ => false

/-- The memo `hasReflected`: `Array.isArray(ra) || Array.isArray(rp)` with
`ra = values?.rfdAvgWatts` and `rp = values?.rfdPeakWatts`. -/
def hasReflected (values : Option Values) : Bool :=
  let ra :=
    match values with
    | some v => reflectedJS v.rfdAvgWatts
    | none => JSVal.undefined
  let rp :=
    match values with
    | some v => reflectedJS v.rfdPeakWatts
    | none => JSVal.undefined
  isArray ra || isArray rp

/-- One sample of the pipeline for channel `idx`: the poll with payload `j`
succeeds, then the panel renders `MeterCard({ idx })` on the published data.
The trace gains the latched flag, the captured SWR maximum and `displaySWR`. -/
def pipelineStep (prefs : Prefs) (idx : Fin 4)
    (acc : HookState × SwrLatch × List (Bool × JSNum × JSNum)) (j : JSVal) :
    HookState × SwrLatch × List (Bool × JSNum × JSNum) :=
  let s := tickSuccess prefs j acc.1
  let r := meterCardSwr prefs.holdEnabled (s.data.map (fun d => d.values)) idx acc.2.1
  (s, r.1, acc.2.2 ++ [(s.hold.latched idx, r.1.hold idx, r.2)])

/-- The trace of the pipeline on a sequence of payloads from the initial state. -/
def pipelineTrace (prefs : Prefs) (idx : Fin 4) (js : List JSVal) : List (Bool × JSNum × JSNum) :=
  (js.foldl (pipelineStep prefs idx) (HookState.init, SwrLatch.init, [])).2.2

/-- A payload reporting the average power `avg` on channel 0 and, when given, the
SWR `swr` on channel 0 (`null` when absent). -/
def samplePayload (avg : ℚ) (swr : Option ℚ) : JSVal :=
  JSVal.obj [("values", JSVal.obj
    [("avgWatts", JSVal.arr [JSVal.num (JSNum.fin avg), JSVal.num (JSNum.fin 0),
        JSVal.num (JSNum.fin 0), JSVal.num (JSNum.fin 0)]),
     ("swr", JSVal.arr [
        (match swr with
         | some q => JSVal.num (JSNum.fin q)
         | none => JSVal.null),
        JSVal.null, JSVal.null, JSVal.null])])]

/-- The scenario: averages `[0, 5, 5, 0, 0]` with SWR `[absent, 1.8, 2.1, absent,
absent]` on channel 0; 1.8 and 2.1 are the rationals 18/10 and 21/10. -/
def scenarioPayloads : List JSVal :=
  [samplePayload 0 none, samplePayload 5 (some (mkRat 18 10)),
   samplePayload 5 (some (mkRat 21 10)), samplePayload 0 none, samplePayload 0 none]

/-- A payload that reports power but has no reflected field at all. -/
def noReflectedPayload : JSVal :=
  JSVal.obj [("values", JSVal.obj
    [("avgWatts", JSVal.arr [JSVal.num (JSNum.fin 5), JSVal.num (JSNum.fin 0),
        JSVal.num (JSNum.fin 0), JSVal.num (JSNum.fin 0)])])]

/-- A payload whose reflected arrays are present with non-numeric entries only. -/
def invalidReflectedPayload : JSVal :=
  JSVal.obj [("values", JSVal.obj
    [("avgWatts", JSVal.arr [JSVal.num (JSNum.fin 5), JSVal.num (JSNum.fin 0),
        JSVal.num (JSNum.fin 0), JSVal.num (JSNum.fin 0)]),
     ("rfdAvgWatts", JSVal.arr [JSVal.str "n/a", JSVal.null, JSVal.bool false, JSVal.null]),
     ("rfdPeakWatts", JSVal.arr [JSVal.null, JSVal.null, JSVal.null, JSVal.null])])]

/-- Preferences whose stored poll interval is 0 ms. -/
def zeroPollPrefs : Prefs :=
  { pollMs := JSNum.fin 0, holdEnabled := false, rfThresholdWatts := JSNum.fin 1 }

/-- Two arrivals out of request order: the response to poll 6 (50 W, peak 100 W on
channel 0) arrives first, the response to poll 5 (5 W, peak 5 W) after it. -/
def staleArrivals : List (Nat × JSVal) :=
  [(6, payloadOf [50, 0, 0, 0] [100, 0, 0, 0] [2, 0, 0, 0]),
   (5, payloadOf [5, 0, 0, 0] [5, 0, 0, 0] [1, 0, 0, 0])]

/-- The invariant of the hold record: no channel is both active and latched. -/
def HoldState.Exclusive (hr : HoldState) : Prop :=
  ∀ i, ¬ (hr.active i = true ∧ hr.latched i = true)

/-- Rendered values for channel 0: an invalid snapshot (0 W), a run of two valid
ones (5 W with SWR 2, then 5 W with SWR 3), and an invalid one again. -/
def latchRenders : List (Option Values) :=
  [some (normalize (samplePayload 0 none)).values,
   some (normalize (samplePayload 5 (some 2))).values,
   some (normalize (samplePayload 5 (some 3))).values,
   some (normalize (samplePayload 0 none)).values]

/-- Preferences with hold enabled and a configured threshold of 0 W. -/
def zeroThresholdPrefs : Prefs :=
  { pollMs := JSNum.fin 200, holdEnabled := true, rfThresholdWatts := JSNum.fin 0 }

/-- The payload `{ values: { avgWatts: [0.5, 1, 0, 0.75] } }`. -/
def halfWattPayload : JSVal :=
  JSVal.obj [("values", JSVal.obj
    [("avgWatts", JSVal.arr [JSVal.num (JSNum.fin (mkRat 1 2)), JSVal.num (JSNum.fin 1),
        JSVal.num (JSNum.fin 0), JSVal.num (JSNum.fin (mkRat 3 4))])])]

/-! # Properties -/

/-! ## Normalisation -/

theorem norm4_eq {α : Type} (ofNum : JSNum → α) (a : JSVal) (fill : α) :
    norm4 ofNum a fill =
      [norm4Entry ofNum a fill 0, norm4Entry ofNum a fill 1,
       norm4Entry ofNum a fill 2, norm4Entry ofNum a fill 3] := by
  cases a <;> try rfl
  case arr xs =>
    have h : ∀ i, (match JSVal.index xs i with
                   | JSVal.num n => ofNum n
                   | _ => fill) = norm4Entry ofNum (JSVal.arr xs) fill i := by
      intro i
      simp only [JSVal.index, norm4Entry, List.getD_eq_getElem?_getD]
      cases hx : xs[i]? with
      | none => simp
      | some x => cases x <;> simp
    simp [norm4, List.range_succ, h]

theorem norm4_length {α : Type} (ofNum : JSNum → α) (a : JSVal) (fill : α) :
    (norm4 ofNum a fill).length = 4 := by
  rw [norm4_eq]; rfl

theorem norm4_getElem? {α : Type} (ofNum : JSNum → α) (a : JSVal) (fill : α)
    (i : Nat) (hi : i < 4) :
    (norm4 ofNum a fill)[i]? = some (norm4Entry ofNum a fill i) := by
  rw [norm4_eq]
  interval_cases i <;> rfl

/-- C1: for every input `a` and every fill value, `norm4(a, fill)` has exactly
four entries, entry `i` being `a[i]` when `a` is an array and `a[i]` is a
number and `fill` otherwise; hence the normalised `avgWatts`, `peakWatts` and
`swr` of any payload have length four, with `-1` at every missing or
non-numeric position. -/
theorem norm4_spec {α : Type} (ofNum : JSNum → α) (a : JSVal) (fill : α) (j : JSVal) :
    (norm4 ofNum a fill).length = 4 ∧
    (∀ i, i < 4 → (norm4 ofNum a fill)[i]? = some (norm4Entry ofNum a fill i)) ∧
    (∀ xs i n, a = JSVal.arr xs → xs[i]? = some (JSVal.num n) →
      norm4Entry ofNum a fill i = ofNum n) ∧
    (∀ i, (∀ xs n, a = JSVal.arr xs → xs[i]? ≠ some (JSVal.num n)) →
      norm4Entry ofNum a fill i = fill) ∧
    ((normalize j).values.avgWatts.length = 4 ∧
     (normalize j).values.peakWatts.length = 4 ∧
     (normalize j).values.swr.length = 4) ∧
    (∀ i, i < 4 →
      let v := JSVal.or (JSVal.optProp j "values") (JSVal.obj [])
      (normalize j).values.avgWatts[i]? =
          some (norm4Entry id (v.getProp "avgWatts") (JSNum.fin (-1)) i) ∧
      (normalize j).values.peakWatts[i]? =
          some (norm4Entry id (v.getProp "peakWatts") (JSNum.fin (-1)) i) ∧
      (normalize j).values.swr[i]? =
          some (norm4Entry id (v.getProp "swr") (JSNum.fin (-1)) i)) := by
  refine ⟨norm4_length _ _ _, norm4_getElem? _ _ _, ?_, ?_, ?_, ?_⟩
  · intro xs i n ha hx
    subst ha
    simp [norm4Entry, hx]
  · intro i h
    cases a <;> try rfl
    case arr xs =>
      simp only [norm4Entry]
      cases hx : xs[i]? with
      | none => rfl
      | some x =>
        cases x <;> try rfl
        case num n => exact absurd hx (h xs n rfl)
  · exact ⟨norm4_length _ _ _, norm4_length _ _ _, norm4_length _ _ _⟩
  · intro i hi
    exact ⟨norm4_getElem? _ _ _ i hi, norm4_getElem? _ _ _ i hi, norm4_getElem? _ _ _ i hi⟩

/-! ## The hold loop, channel by channel -/

theorem holdStep_other (thr : JSNum) (st : HoldState × Values) (k i : Fin 4) (h : k ≠ i) :
    chanView (holdStep thr st k) i = chanView st i := by
  have hv : k.val ≠ i.val := fun e => h (Fin.ext e)
  have hi : i ≠ k := fun e => h e.symm
  simp only [chanView, holdStep]
  split_ifs <;> (try split) <;> (try split) <;>
    simp [Function.update_noteq hi, List.getElem?_set_ne hv]

theorem getElem?_set_same {α : Type} (l : List α) (i : Nat) (a : α) :
    (l.set i a)[i]? = l[i]?.map (fun _ => a) := by
  rw [List.getElem?_set_self']; rfl

theorem holdStep_self (thr : JSNum) (st : HoldState × Values) (i : Fin 4) :
    chanView (holdStep thr st i) i = chanStep thr (chanView st i) := by
  obtain ⟨hr, v⟩ := st
  cases hact : ((v.avgWatts[i.val]?).getD (JSNum.fin (-1))).ge thr <;>
  cases ha : hr.active i <;> cases hl : hr.latched i <;>
  rcases hr1 : v.rfdAvgWatts[i.val]? with _ | _ | r1 <;>
  rcases hr2 : v.rfdPeakWatts[i.val]? with _ | _ | r2 <;>
  simp [chanView, holdStep, chanStep, holdIsActive, curAvg, curPeak, hact, ha, hl, hr1, hr2,
    getElem?_set_same]

theorem foldl_holdStep_other (thr : JSNum) (i : Fin 4) (l : List (Fin 4)) (hl : i ∉ l)
    (st : HoldState × Values) :
    chanView (l.foldl (holdStep thr) st) i = chanView st i := by
  induction l generalizing st with
  | nil => rfl
  | cons k l ih =>
    have hk : k ≠ i := fun e => hl (by simp [e])
    have hl2 : i ∉ l := fun e => hl (by simp [e])
    rw [List.foldl_cons, ih hl2, holdStep_other thr st k i hk]

theorem foldl_holdStep_split (thr : JSNum) (i : Fin 4) (a b : List (Fin 4))
    (ha : i ∉ a) (hb : i ∉ b) (st : HoldState × Values) :
    chanView ((a ++ i :: b).foldl (holdStep thr) st) i = chanStep thr (chanView st i) := by
  rw [List.foldl_append, List.foldl_cons, foldl_holdStep_other thr i b hb, holdStep_self,
    foldl_holdStep_other thr i a ha]

theorem applyHold_view (prefs : Prefs) (h : prefs.holdEnabled = true) (hr : HoldState)
    (v : Values) (i : Fin 4) :
    chanView (applyHold prefs hr v) i
      = chanStep (effThreshold prefs.rfThresholdWatts) (chanView (hr, v) i) := by
  simp only [applyHold, h, if_true]
  fin_cases i
  · exact foldl_holdStep_split _ 0 [] [1, 2, 3] (by decide) (by decide) _
  · exact foldl_holdStep_split _ 1 [0] [2, 3] (by decide) (by decide) _
  · exact foldl_holdStep_split _ 2 [0, 1] [3] (by decide) (by decide) _
  · exact foldl_holdStep_split _ 3 [0, 1, 2] [] (by decide) (by decide) _

/-! ## One successful poll with hold enabled, channel by channel -/

theorem normalize_avg_some (j : JSVal) (i : Fin 4) :
    ∃ a, (normalize j).values.avgWatts[i.val]? = some a :=
  ⟨_, norm4_getElem? _ _ _ i.val i.isLt⟩

theorem normalize_peak_some (j : JSVal) (i : Fin 4) :
    ∃ a, (normalize j).values.peakWatts[i.val]? = some a :=
  ⟨_, norm4_getElem? _ _ _ i.val i.isLt⟩

theorem tickSuccess_active (p : Prefs) (h : p.holdEnabled = true) (j : JSVal) (s : HookState)
    (i : Fin 4) : (tickSuccess p j s).hold.active i = pollActive (p, j) i := by
  have hv := congrArg ChanView.active (applyHold_view p h s.hold (normalize j).values i)
  simpa [chanView, chanStep, tickSuccess, pollActive, holdIsActive, curAvg] using hv

theorem tickSuccess_latched (p : Prefs) (h : p.holdEnabled = true) (j : JSVal) (s : HookState)
    (i : Fin 4) :
    (tickSuccess p j s).hold.latched i =
      if pollActive (p, j) i then (s.hold.active i && s.hold.latched i)
      else (s.hold.active i || s.hold.latched i) := by
  have hv := congrArg ChanView.latched (applyHold_view p h s.hold (normalize j).values i)
  simp only [chanView, chanStep, tickSuccess, pollActive, holdIsActive, curAvg] at hv ⊢
  rw [hv]
  split_ifs <;> simp_all

theorem tickSuccess_avg (p : Prefs) (h : p.holdEnabled = true) (j : JSVal) (s : HookState)
    (i : Fin 4) :
    (tickSuccess p j s).hold.avgWatts i =
      if pollActive (p, j) i then curAvg (normalize j).values i else s.hold.avgWatts i := by
  have hv := congrArg ChanView.avg (applyHold_view p h s.hold (normalize j).values i)
  simpa [chanView, chanStep, tickSuccess, pollActive, holdIsActive, curAvg] using hv

theorem tickSuccess_peak (p : Prefs) (h : p.holdEnabled = true) (j : JSVal) (s : HookState)
    (i : Fin 4) :
    (tickSuccess p j s).hold.peakWatts i =
      if pollActive (p, j) i then
        JSNum.mathMax (s.hold.peakWatts i) (curPeak (normalize j).values i)
      else s.hold.peakWatts i := by
  have hv := congrArg ChanView.peak (applyHold_view p h s.hold (normalize j).values i)
  simpa [chanView, chanStep, tickSuccess, pollActive, holdIsActive, curAvg, curPeak] using hv

theorem tickSuccess_effAvg (p : Prefs) (h : p.holdEnabled = true) (j : JSVal) (s : HookState)
    (i : Fin 4) :
    effAvg (tickSuccess p j s) i =
      if (tickSuccess p j s).hold.latched i then some ((tickSuccess p j s).hold.avgWatts i)
      else (normalize j).values.avgWatts[i.val]? := by
  have hv := applyHold_view p h s.hold (normalize j).values i
  have h1 := congrArg ChanView.sAvg hv
  have h2 := congrArg ChanView.latched hv
  have h3 := congrArg ChanView.avg hv
  obtain ⟨a, ha⟩ := normalize_avg_some j i
  simp only [chanView, chanStep] at h1 h2 h3
  simp only [effAvg, tickSuccess, Option.bind]
  rw [h1, h2, h3, ha]
  split_ifs <;> rfl

theorem tickSuccess_effPeak (p : Prefs) (h : p.holdEnabled = true) (j : JSVal) (s : HookState)
    (i : Fin 4) :
    effPeak (tickSuccess p j s) i =
      if (tickSuccess p j s).hold.latched i then some ((tickSuccess p j s).hold.peakWatts i)
      else (normalize j).values.peakWatts[i.val]? := by
  have hv := applyHold_view p h s.hold (normalize j).values i
  have h1 := congrArg ChanView.sPeak hv
  have h2 := congrArg ChanView.latched hv
  have h3 := congrArg ChanView.peak hv
  obtain ⟨a, ha⟩ := normalize_peak_some j i
  simp only [chanView, chanStep] at h1 h2 h3
  simp only [effPeak, tickSuccess, Option.bind]
  rw [h1, h2, h3, ha]
  split_ifs <;> rfl

/-! ## Sequences of polls -/

theorem runPolls_append (s : HookState) (a b : List (Prefs × JSVal)) :
    runPolls s (a ++ b) = runPolls (runPolls s a) b := by
  simp [runPolls, List.foldl_append]

theorem runPolls_snoc (s : HookState) (a : List (Prefs × JSVal)) (q : Prefs × JSVal) :
    runPolls s (a ++ [q]) = tickSuccess q.1 q.2 (runPolls s a) := by
  simp [runPolls, List.foldl_append]

/-- While hold stays enabled, a latched channel is not active, its latch was set
by an active-to-inactive transition, no later poll found the channel active,
and its held buffers are those of the poll before that transition. -/
theorem run_latched_inv (s0 : HookState) (i : Fin 4) (h0 : s0.hold.latched i = false)
    (ps : List (Prefs × JSVal)) (hps : ∀ p ∈ ps, p.1.holdEnabled = true)
    (hl : (runPolls s0 ps).hold.latched i = true) :
    (runPolls s0 ps).hold.active i = false ∧
    ∃ pre p mid, ps = pre ++ p :: mid ∧
      (runPolls s0 pre).hold.active i = true ∧
      pollActive p i = false ∧
      (∀ q ∈ mid, pollActive q i = false) ∧
      (runPolls s0 ps).hold.avgWatts i = (runPolls s0 pre).hold.avgWatts i ∧
      (runPolls s0 ps).hold.peakWatts i = (runPolls s0 pre).hold.peakWatts i := by
  induction ps using List.reverseRecOn with
  | nil =>
    simp [runPolls, h0] at hl
  | append_singleton qs q ih =>
    have hq : q.1.holdEnabled = true := hps q (by simp)
    have hqs : ∀ p ∈ qs, p.1.holdEnabled = true := fun p hp => hps p (by simp [hp])
    have ih := ih hqs
    rw [runPolls_snoc] at hl ⊢
    have hA := tickSuccess_active q.1 hq q.2 (runPolls s0 qs) i
    have hL := tickSuccess_latched q.1 hq q.2 (runPolls s0 qs) i
    have hAvg := tickSuccess_avg q.1 hq q.2 (runPolls s0 qs) i
    have hPk := tickSuccess_peak q.1 hq q.2 (runPolls s0 qs) i
    have hpa : pollActive (q.1, q.2) i = pollActive q i := rfl
    rw [hpa] at hA hL hAvg hPk
    rw [hL] at hl
    cases hact : pollActive q i with
    | true =>
      rw [hact] at hl
      simp only [if_true, Bool.and_eq_true] at hl
      have := (ih hl.2).1
      rw [hl.1] at this
      exact absurd this (by decide)
    | false =>
      rw [hact] at hl hA hAvg hPk
      simp only [Bool.false_eq_true, if_false] at hl hAvg hPk
      refine ⟨hA, ?_⟩
      cases hprev : (runPolls s0 qs).hold.active i with
      | true =>
        exact ⟨qs, q, [], rfl, hprev, hact, by simp, hAvg, hPk⟩
      | false =>
        rw [hprev] at hl
        simp only [Bool.false_or] at hl
        obtain ⟨_, pre, p, mid, hsplit, h1, h2, h3, h4, h5⟩ := ih hl
        refine ⟨pre, p, mid ++ [q], by simp [hsplit], h1, h2, ?_, hAvg.trans h4, hPk.trans h5⟩
        intro x hx
        rcases List.mem_append.1 hx with hx | hx
        · exact h3 x hx
        · simp only [List.mem_singleton] at hx
          rw [hx]; exact hact

theorem list_nil_or_snoc {α : Type} (l : List α) : l = [] ∨ ∃ L b, l = L ++ [b] := by
  rcases List.eq_nil_or_concat l with h | ⟨L, b, h⟩
  · exact Or.inl h
  · exact Or.inr ⟨L, b, by rw [h, List.concat_eq_append]⟩

/-- C2: in a sequence of successful polls with hold enabled and no reset, started
in a state where channel `i` is not latched (the initial state is one), if
channel `i` is latched after the last poll then the sequence splits as
`pre ++ p :: mid` where `p` is the most recent active-to-inactive transition of
channel `i` (the channel was active after `pre`, is not active at `p`, and is
never active afterwards), the held average and peak did not change at `p`, and
the displayed average and peak after the last poll are the held average and
peak as they stood at `p`. -/
theorem latched_effective_is_frozen_hold (s0 : HookState) (i : Fin 4)
    (h0 : s0.hold.latched i = false)
    (ps : List (Prefs × JSVal)) (hps : ∀ p ∈ ps, p.1.holdEnabled = true)
    (hl : (runPolls s0 ps).hold.latched i = true) :
    ∃ pre p mid, ps = pre ++ p :: mid ∧
      (runPolls s0 pre).hold.active i = true ∧
      pollActive p i = false ∧
      (∀ m1 m2, mid = m1 ++ m2 → (runPolls s0 (pre ++ p :: m1)).hold.active i = false) ∧
      (runPolls s0 (pre ++ [p])).hold.avgWatts i = (runPolls s0 pre).hold.avgWatts i ∧
      (runPolls s0 (pre ++ [p])).hold.peakWatts i = (runPolls s0 pre).hold.peakWatts i ∧
      effAvg (runPolls s0 ps) i = some ((runPolls s0 (pre ++ [p])).hold.avgWatts i) ∧
      effPeak (runPolls s0 ps) i = some ((runPolls s0 (pre ++ [p])).hold.peakWatts i) := by
  obtain ⟨_, pre, p, mid, hsplit, h1, h2, h3, h4, h5⟩ := run_latched_inv s0 i h0 ps hps hl
  have hp : p.1.holdEnabled = true := hps p (by simp [hsplit])
  have hmid : ∀ q ∈ mid, q.1.holdEnabled = true := fun q hq => hps q (by simp [hsplit, hq])
  have hpa : pollActive (p.1, p.2) i = pollActive p i := rfl
  have e1 : (runPolls s0 (pre ++ [p])).hold.avgWatts i = (runPolls s0 pre).hold.avgWatts i := by
    rw [runPolls_snoc, tickSuccess_avg p.1 hp, hpa, h2]; simp
  have e2 : (runPolls s0 (pre ++ [p])).hold.peakWatts i = (runPolls s0 pre).hold.peakWatts i := by
    rw [runPolls_snoc, tickSuccess_peak p.1 hp, hpa, h2]; simp
  refine ⟨pre, p, mid, hsplit, h1, h2, ?_, e1, e2, ?_, ?_⟩
  · intro m1 m2 hm
    rcases list_nil_or_snoc m1 with hnil | ⟨L, b, hb⟩
    · subst hnil
      rw [runPolls_snoc, tickSuccess_active p.1 hp, hpa, h2]
    · have hbm : b ∈ mid := by simp [hm, hb]
      have : pre ++ p :: m1 = (pre ++ p :: L) ++ [b] := by simp [hb]
      rw [this, runPolls_snoc, tickSuccess_active b.1 (hmid b hbm)]
      exact h3 b hbm
  · rcases list_nil_or_snoc ps with hnil | ⟨L, b, hb⟩
    · simp [hnil] at hsplit
    · have hbb : b.1.holdEnabled = true := hps b (by simp [hb])
      rw [e1, ← h4]
      subst hb
      rw [runPolls_snoc] at hl ⊢
      rw [tickSuccess_effAvg b.1 hbb, hl]; rfl
  · rcases list_nil_or_snoc ps with hnil | ⟨L, b, hb⟩
    · simp [hnil] at hsplit
    · have hbb : b.1.holdEnabled = true := hps b (by simp [hb])
      rw [e2, ← h5]
      subst hb
      rw [runPolls_snoc] at hl ⊢
      rw [tickSuccess_effPeak b.1 hbb, hl]; rfl

theorem latched_effective_is_frozen_hold_witness :
    HookState.init.hold.latched 0 = false ∧
    (∀ p ∈ keyThenUnkey, p.1.holdEnabled = true) ∧
    (runPolls HookState.init keyThenUnkey).hold.latched 0 = true ∧
    ∃ pre p mid, keyThenUnkey = pre ++ p :: mid ∧
      (runPolls HookState.init pre).hold.active 0 = true ∧
      pollActive p 0 = false ∧
      (∀ m1 m2, mid = m1 ++ m2 →
        (runPolls HookState.init (pre ++ p :: m1)).hold.active 0 = false) ∧
      (runPolls HookState.init (pre ++ [p])).hold.avgWatts 0
        = (runPolls HookState.init pre).hold.avgWatts 0 ∧
      (runPolls HookState.init (pre ++ [p])).hold.peakWatts 0
        = (runPolls HookState.init pre).hold.peakWatts 0 ∧
      effAvg (runPolls HookState.init keyThenUnkey) 0
        = some ((runPolls HookState.init (pre ++ [p])).hold.avgWatts 0) ∧
      effPeak (runPolls HookState.init keyThenUnkey) 0
        = some ((runPolls HookState.init (pre ++ [p])).hold.peakWatts 0) :=
  ⟨rfl, by decide, by decide,
    latched_effective_is_frozen_hold HookState.init 0 rfl keyThenUnkey (by decide) (by decide)⟩

/-! ## Re-activation and accumulation -/

/-- C3: the hold step at a re-activation, evaluated. After a transmission at
50 W with peak 100 W and one silent poll, channel 0 is latched and not active;
the next poll finds it active with average 5 W and peak 5 W. After that poll
the latch is cleared and the held average is the current 5 W, but the held
peak is still the 100 W of the previous cycle, not the current peak 5 W. -/
theorem reactivation_keeps_previous_peak :
    (runPolls HookState.init keyThenUnkey).hold.latched 0 = true ∧
    (runPolls HookState.init keyThenUnkey).hold.active 0 = false ∧
    pollActive keyAgain 0 = true ∧
    curAvg (normalize keyAgain.2).values 0 = JSNum.fin 5 ∧
    curPeak (normalize keyAgain.2).values 0 = JSNum.fin 5 ∧
    (runPolls HookState.init (keyThenUnkey ++ [keyAgain])).hold.active 0 = true ∧
    (runPolls HookState.init (keyThenUnkey ++ [keyAgain])).hold.latched 0 = false ∧
    (runPolls HookState.init (keyThenUnkey ++ [keyAgain])).hold.avgWatts 0 = JSNum.fin 5 ∧
    (runPolls HookState.init (keyThenUnkey ++ [keyAgain])).hold.peakWatts 0 = JSNum.fin 100 ∧
    (runPolls HookState.init (keyThenUnkey ++ [keyAgain])).hold.peakWatts 0
      ≠ curPeak (normalize keyAgain.2).values 0 := by
  decide

/-- C4: with hold enabled, on a poll at which channel `i` is active (its
normalised average power is a number `>=` the effective threshold) the held
average becomes the current average and the held peak becomes
`Math.max(previous held peak, current peak)`; on a poll at which channel `i`
is not active neither buffer changes. -/
theorem hold_buffers_update (p : Prefs) (h : p.holdEnabled = true) (j : JSVal) (s : HookState)
    (i : Fin 4) :
    ((curAvg (normalize j).values i).ge (effThreshold p.rfThresholdWatts) = true →
      (tickSuccess p j s).hold.avgWatts i = curAvg (normalize j).values i ∧
      (tickSuccess p j s).hold.peakWatts i
        = JSNum.mathMax (s.hold.peakWatts i) (curPeak (normalize j).values i)) ∧
    ((curAvg (normalize j).values i).ge (effThreshold p.rfThresholdWatts) = false →
      (tickSuccess p j s).hold.avgWatts i = s.hold.avgWatts i ∧
      (tickSuccess p j s).hold.peakWatts i = s.hold.peakWatts i) := by
  have hA := tickSuccess_avg p h j s i
  have hP := tickSuccess_peak p h j s i
  simp only [pollActive, holdIsActive] at hA hP
  constructor
  · intro hact
    rw [hA, hP, if_pos hact, if_pos hact]
    exact ⟨rfl, rfl⟩
  · intro hact
    have hn : ¬ (curAvg (normalize j).values i).ge (effThreshold p.rfThresholdWatts) = true := by
      rw [hact]; decide
    rw [hA, hP, if_neg hn, if_neg hn]
    exact ⟨rfl, rfl⟩

theorem hold_buffers_update_witness :
    holdOnPrefs.holdEnabled = true ∧
    (tickSuccess holdOnPrefs keyAgain.2 (runPolls HookState.init keyThenUnkey)).hold.avgWatts 0
      = JSNum.fin 5 ∧
    (tickSuccess holdOnPrefs keyAgain.2 (runPolls HookState.init keyThenUnkey)).hold.peakWatts 0
      = JSNum.mathMax (JSNum.fin 100) (JSNum.fin 5) :=
  ⟨rfl,
    ((hold_buffers_update holdOnPrefs rfl keyAgain.2
      (runPolls HookState.init keyThenUnkey) 0).1 (by decide)).1.trans (by decide),
    ((hold_buffers_update holdOnPrefs rfl keyAgain.2
      (runPolls HookState.init keyThenUnkey) 0).1 (by decide)).2.trans (by decide)⟩

/-! ## Reset and hold-disable -/

theorem resetMeter_hold (s : HookState) (i : Fin 4) :
    (resetMeter (JSVal.num (JSNum.fin (i.val : ℚ))) s).hold = resetOne (i.val : Int) s.hold := by
  have ht : mathTrunc (i.val : ℚ) = (i.val : Int) := by
    have h0 : ¬ ((i.val : ℚ) < 0) := not_lt.2 (Nat.cast_nonneg _)
    simp [mathTrunc, h0]
  have hi : (i.val : Int) ≤ 3 := by have := i.isLt; omega
  have h0 : (0 : Int) ≤ (i.val : Int) := Int.natCast_nonneg _
  simp only [resetMeter, ht, min_eq_right hi, max_eq_right h0]

theorem resetOne_fin (hr : HoldState) (i : Fin 4) :
    resetOne (i.val : Int) hr =
      { active := Function.update hr.active i false
        latched := Function.update hr.latched i false
        avgWatts := Function.update hr.avgWatts i (JSNum.fin (-1))
        peakWatts := Function.update hr.peakWatts i (JSNum.fin (-1))
        rfdAvgWatts := Function.update hr.rfdAvgWatts i (JSNum.fin (-1))
        rfdPeakWatts := Function.update hr.rfdPeakWatts i (JSNum.fin (-1)) } := by
  have hi : (0 : Int) ≤ (i.val : Int) ∧ (i.val : Int) ≤ 3 := by
    have := i.isLt; omega
  have hk : (⟨(i.val : Int).toNat, by omega⟩ : Fin 4) = i := Fin.ext (by simp)
  simp only [resetOne, dif_pos hi, hk]

/-- C5: for every state of the hook and every channel `i` in {0,1,2,3},
`resetMeter(i)` sets the active and latched flags of channel `i` to false and
its held average, peak and reflected buffers to `-1`, leaves the flags and
buffers of every channel `j != i` unchanged, and does not change the live
snapshot (nor the error and connectivity cells). -/
theorem resetMeter_channel (s : HookState) (i : Fin 4) :
    let s1 := resetMeter (JSVal.num (JSNum.fin (i.val : ℚ))) s
    (s1.hold.active i = false ∧ s1.hold.latched i = false ∧
     s1.hold.avgWatts i = JSNum.fin (-1) ∧ s1.hold.peakWatts i = JSNum.fin (-1) ∧
     s1.hold.rfdAvgWatts i = JSNum.fin (-1) ∧ s1.hold.rfdPeakWatts i = JSNum.fin (-1)) ∧
    (∀ j, j ≠ i →
     s1.hold.active j = s.hold.active j ∧ s1.hold.latched j = s.hold.latched j ∧
     s1.hold.avgWatts j = s.hold.avgWatts j ∧ s1.hold.peakWatts j = s.hold.peakWatts j ∧
     s1.hold.rfdAvgWatts j = s.hold.rfdAvgWatts j ∧
     s1.hold.rfdPeakWatts j = s.hold.rfdPeakWatts j) ∧
    s1.data = s.data ∧ s1.error = s.error ∧ s1.connected = s.connected := by
  intro s1
  have hh : s1.hold = resetOne (i.val : Int) s.hold := resetMeter_hold s i
  rw [resetOne_fin] at hh
  refine ⟨?_, ?_, rfl, rfl, rfl⟩
  · simp [hh]
  · intro j hj
    simp [hh, Function.update_noteq hj]

/-- C6: for every payload and every prior state, a successful poll processed with
hold disabled leaves the hold record equal to the initial one (all flags
false, all buffers `-1`) and publishes exactly the normalised snapshot of the
payload, no held value being substituted. -/
theorem hold_disabled_resets (p : Prefs) (h : p.holdEnabled = false) (j : JSVal)
    (s : HookState) :
    (tickSuccess p j s).hold = HoldState.init ∧
    (∀ i, (tickSuccess p j s).hold.active i = false ∧
          (tickSuccess p j s).hold.latched i = false ∧
          (tickSuccess p j s).hold.avgWatts i = JSNum.fin (-1) ∧
          (tickSuccess p j s).hold.peakWatts i = JSNum.fin (-1) ∧
          (tickSuccess p j s).hold.rfdAvgWatts i = JSNum.fin (-1) ∧
          (tickSuccess p j s).hold.rfdPeakWatts i = JSNum.fin (-1)) ∧
    (tickSuccess p j s).data = some (normalize j) := by
  have hh : (tickSuccess p j s).hold = HoldState.init := by
    simp [tickSuccess, applyHold, h]
  refine ⟨hh, ?_, ?_⟩
  · intro i
    rw [hh]
    exact ⟨rfl, rfl, rfl, rfl, rfl, rfl⟩
  · simp [tickSuccess, applyHold, h]

theorem hold_disabled_resets_witness :
    holdOffPrefs.holdEnabled = false ∧
    (runPolls HookState.init keyThenUnkey).hold.latched 0 = true ∧
    (tickSuccess holdOffPrefs keyAgain.2 (runPolls HookState.init keyThenUnkey)).hold
      = HoldState.init ∧
    (tickSuccess holdOffPrefs keyAgain.2 (runPolls HookState.init keyThenUnkey)).data
      = some (normalize keyAgain.2) :=
  ⟨rfl, by decide,
    (hold_disabled_resets holdOffPrefs rfl keyAgain.2 (runPolls HookState.init keyThenUnkey)).1,
    (hold_disabled_resets holdOffPrefs rfl keyAgain.2 (runPolls HookState.init keyThenUnkey)).2.2⟩

/-! ## Worst SWR -/

theorem swrCandidate_eq_some (values : Option Values) (rfThr : JSNum) (i : Nat) (q : ℚ) :
    swrCandidate values rfThr i = some q ↔
      ∃ v, values = some v ∧ isActive values rfThr i = true ∧
        v.swr[i]? = some (JSNum.fin q) ∧ 0 ≤ q := by
  cases values with
  | none => simp [swrCandidate]
  | some v =>
    simp only [swrCandidate, Option.some.injEq, exists_eq_left']
    cases hact : isActive (some v) rfThr i with
    | false => simp
    | true =>
      rcases hs : v.swr[i]? with _ | (_ | _ | _ | r)
      · simp
      · simp
      · simp
      · simp
      · by_cases hr : 0 ≤ r
        · simp only [if_true, hr, Option.some.injEq, true_and, JSNum.fin.injEq]
          constructor
          · intro e; subst e; exact ⟨rfl, hr⟩
          · intro e; exact e.1
        · simp only [if_true, hr, if_false, Option.some.injEq, true_and, JSNum.fin.injEq]
          constructor
          · intro e; exact absurd e (by simp)
          · intro e; exact absurd (e.1 ▸ e.2) hr

theorem worstStep_eq (v : Values) (rfThr : JSNum) (w : Option JSNum) (i : Nat) :
    worstStep (some v) v.swr rfThr w i =
      match swrCandidate (some v) rfThr i with
      | none => w
      | some q =>
        match w with
        | none => some (JSNum.fin q)
        | some w0 => if (JSNum.fin q).gt w0 then some (JSNum.fin q) else w := by
  simp only [worstStep, swrCandidate]
  cases hact : isActive (some v) rfThr i with
  | false => simp
  | true =>
    cases hs : v.swr[i]? with
    | none => simp
    | some x =>
      cases x with
      | fin r =>
        by_cases hr : 0 ≤ r
        · have : ¬ r < 0 := not_lt.2 hr
          simp [JSNum.isFinite, JSNum.lt, hr, this]
        · have : r < 0 := not_le.1 hr
          simp [JSNum.isFinite, JSNum.lt, hr, this]
      | nan => simp [JSNum.isFinite]
      | pinf => simp [JSNum.isFinite]
      | ninf => simp [JSNum.isFinite]

/-- The running value of the loop of `worstSWR` over the indices `l`: empty when
no index of `l` contributes, otherwise the largest contribution. -/
theorem worst_fold_inv (v : Values) (rfThr : JSNum) (l : List Nat) :
    (l.foldl (worstStep (some v) v.swr rfThr) none = none ∧
      ∀ i ∈ l, swrCandidate (some v) rfThr i = none) ∨
    ∃ m, l.foldl (worstStep (some v) v.swr rfThr) none = some (JSNum.fin m) ∧
      (∃ i ∈ l, swrCandidate (some v) rfThr i = some m) ∧
      ∀ i ∈ l, ∀ q, swrCandidate (some v) rfThr i = some q → q ≤ m := by
  induction l using List.reverseRecOn with
  | nil => left; simp
  | append_singleton l i ih =>
    rw [List.foldl_append, List.foldl_cons, List.foldl_nil, worstStep_eq]
    cases hc : swrCandidate (some v) rfThr i with
    | none =>
      rcases ih with ⟨h1, h2⟩ | ⟨m, h1, ⟨k, hk, hkm⟩, h3⟩
      · left
        refine ⟨h1, ?_⟩
        intro k hk
        rcases List.mem_append.1 hk with hk | hk
        · exact h2 k hk
        · rw [List.mem_singleton.1 hk]; exact hc
      · right
        refine ⟨m, h1, ⟨k, List.mem_append_left _ hk, hkm⟩, ?_⟩
        intro k2 hk2 q hq
        rcases List.mem_append.1 hk2 with hk2 | hk2
        · exact h3 k2 hk2 q hq
        · rw [List.mem_singleton.1 hk2, hc] at hq
          exact absurd hq (by simp)
    | some q =>
      right
      rcases ih with ⟨h1, h2⟩ | ⟨m, h1, ⟨k, hk, hkm⟩, h3⟩
      · refine ⟨q, by rw [h1], ⟨i, by simp, hc⟩, ?_⟩
        intro k2 hk2 q2 hq2
        rcases List.mem_append.1 hk2 with hk2 | hk2
        · rw [h2 k2 hk2] at hq2
          exact absurd hq2 (by simp)
        · rw [List.mem_singleton.1 hk2, hc] at hq2
          exact le_of_eq (Option.some.inj hq2).symm
      · rw [h1]
        by_cases hlt : m < q
        · refine ⟨q, by simp [JSNum.gt, JSNum.lt, hlt], ⟨i, by simp, hc⟩, ?_⟩
          intro k2 hk2 q2 hq2
          rcases List.mem_append.1 hk2 with hk2 | hk2
          · exact le_trans (h3 k2 hk2 q2 hq2) (le_of_lt hlt)
          · rw [List.mem_singleton.1 hk2, hc] at hq2
            exact le_of_eq (Option.some.inj hq2).symm
        · refine ⟨m, by simp [JSNum.gt, JSNum.lt, hlt], ⟨k, List.mem_append_left _ hk, hkm⟩, ?_⟩
          intro k2 hk2 q2 hq2
          rcases List.mem_append.1 hk2 with hk2 | hk2
          · exact h3 k2 hk2 q2 hq2
          · rw [List.mem_singleton.1 hk2, hc] at hq2
            rw [← Option.some.inj hq2]
            exact not_lt.1 hlt

theorem mem_indices (i : Nat) : i ∈ ([0, 1, 2, 3] : List Nat) ↔ i < 4 := by
  simp only [List.mem_cons, List.mem_singleton, List.mem_nil_iff, or_false]
  omega

/-- C7 as stated fails: in the snapshot of a payload that reports 5 W on channel 0
and no SWR, with threshold 1 W, channel 0 is active under the panel's
predicate and yet `worstSWR` is `null`. -/
theorem worstSWR_null_with_active_channel :
    isActive (some activeNoSwr) (effThreshold (JSNum.fin 1)) 0 = true ∧
    activeNoSwr.swr = [JSNum.fin (-1), JSNum.fin (-1), JSNum.fin (-1), JSNum.fin (-1)] ∧
    worstSWR (some activeNoSwr) (effThreshold (JSNum.fin 1)) = none ∧
    ¬ (worstSWR (some activeNoSwr) (effThreshold (JSNum.fin 1)) = none ↔
        ∀ i, i < 4 → isActive (some activeNoSwr) (effThreshold (JSNum.fin 1)) i = false) := by
  refine ⟨by decide, by decide, by decide, ?_⟩
  intro h
  have h0 := h.1 (by decide) 0 (by decide)
  exact absurd h0 (by decide)

/-- C7, amended: `worstSWR` is `null` exactly when no channel in {0,1,2,3} is both
active under the panel's predicate and has a finite SWR `>= 0`; otherwise it
is the maximum of the finite non-negative SWR values of the active channels. -/
theorem worstSWR_spec (values : Option Values) (rfThr : JSNum) :
    (worstSWR values rfThr = none ↔
      ∀ v i q, values = some v → i < 4 → isActive values rfThr i = true →
        v.swr[i]? = some (JSNum.fin q) → ¬ 0 ≤ q) ∧
    (∀ w, worstSWR values rfThr = some w →
      ∃ v m, values = some v ∧ w = JSNum.fin m ∧
        (∃ i, i < 4 ∧ isActive values rfThr i = true ∧
          v.swr[i]? = some (JSNum.fin m) ∧ 0 ≤ m) ∧
        ∀ i q, i < 4 → isActive values rfThr i = true →
          v.swr[i]? = some (JSNum.fin q) → 0 ≤ q → q ≤ m) := by
  cases values with
  | none =>
    refine ⟨?_, ?_⟩
    · simp [worstSWR]
    · intro w hw; simp [worstSWR] at hw
  | some v =>
    have hinv := worst_fold_inv v rfThr [0, 1, 2, 3]
    have hw : worstSWR (some v) rfThr
        = ([0, 1, 2, 3] : List Nat).foldl (worstStep (some v) v.swr rfThr) none := rfl
    rw [hw]
    rcases hinv with ⟨h1, h2⟩ | ⟨m, h1, ⟨k, hk, hkm⟩, h3⟩
    · refine ⟨?_, ?_⟩
      · refine ⟨fun _ => ?_, fun _ => h1⟩
        intro v2 i q hv hi hact hs hq
        have : swrCandidate (some v) rfThr i = some q :=
          (swrCandidate_eq_some _ _ _ _).2 ⟨v2, hv, hact, hs, hq⟩
        rw [h2 i ((mem_indices i).2 hi)] at this
        exact absurd this (by simp)
      · intro w hw2
        rw [h1] at hw2
        exact absurd hw2 (by simp)
    · obtain ⟨v2, hv2, hact, hs, hm⟩ := (swrCandidate_eq_some _ _ _ _).1 hkm
      have hvv : v2 = v := (Option.some.inj hv2).symm
      subst hvv
      refine ⟨?_, ?_⟩
      · rw [h1]
        refine ⟨fun e => absurd e (by simp), fun hall => ?_⟩
        exact absurd hm (hall v2 k m rfl ((mem_indices k).1 hk) hact hs)
      · intro w hw2
        rw [h1] at hw2
        refine ⟨v2, m, rfl, (Option.some.inj hw2).symm,
          ⟨k, (mem_indices k).1 hk, hact, hs, hm⟩, ?_⟩
        intro i q hi hact2 hs2 hq
        exact h3 i ((mem_indices i).2 hi) q
          ((swrCandidate_eq_some _ _ _ _).2 ⟨v2, rfl, hact2, hs2, hq⟩)

/-! ## SWR tone -/

theorem mathMax_fin (a b : ℚ) :
    JSNum.mathMax (JSNum.fin a) (JSNum.fin b) = JSNum.fin (max a b) := by
  by_cases h : a < b
  · simp [JSNum.mathMax, JSNum.lt, h, max_eq_right (le_of_lt h)]
  · simp [JSNum.mathMax, JSNum.lt, h, max_eq_left (not_lt.1 h)]

theorem roundHalfEven_err (y : ℚ) : |(JSNum.roundHalfEven y : ℚ) - y| ≤ 1 / 2 := by
  have h1 := Int.floor_le y
  have h2 := Int.lt_floor_add_one y
  unfold JSNum.roundHalfEven
  simp only
  split_ifs with ha hb hc <;> rw [abs_le] <;> push_cast <;> constructor <;> linarith

theorem roundHalfEven_int (n : ℤ) : JSNum.roundHalfEven (n : ℚ) = n := by
  simp [JSNum.roundHalfEven]

theorem roundHalfEven_tie_even (n : ℤ) (h : n % 2 = 0) :
    JSNum.roundHalfEven ((n : ℚ) + 1 / 2) = n := by
  have hf : ⌊(n : ℚ) + 1 / 2⌋ = n := by
    rw [Int.floor_eq_iff]
    constructor <;> linarith
  have h1 : ¬ ((n : ℚ) + 1 / 2 - (n : ℚ) < 1 / 2) := by
    intro hlt; linarith
  have h2 : ¬ ((1 : ℚ) / 2 < (n : ℚ) + 1 / 2 - (n : ℚ)) := by
    intro hlt; linarith
  simp only [JSNum.roundHalfEven, hf, h1, h2, if_false, h, if_true]

theorem log2_of_bounds (x : ℚ) (e : ℤ) (h1 : (2 : ℚ) ^ e ≤ x) (h2 : x < (2 : ℚ) ^ (e + 1)) :
    Int.log 2 x = e := by
  have hpos : 0 < x := lt_of_lt_of_le (zpow_pos (by norm_num) e) h1
  have ha : e ≤ Int.log 2 x := (Int.zpow_le_iff_le_log (by norm_num) hpos).1 (by exact_mod_cast h1)
  have hb : Int.log 2 x < e + 1 :=
    (Int.lt_zpow_iff_log_lt (by norm_num) hpos).1 (by exact_mod_cast h2)
  omega

/-- In the normal range the rounded value is finite and within half a unit in the
last place of `x`, hence within `x / 2^53`. -/
theorem roundDouble_normal (x : ℚ) (hlo : (2 : ℚ) ^ (-1022 : ℤ) ≤ x)
    (hhi : x ≤ (2 : ℚ) ^ (1023 : ℤ)) :
    JSNum.roundDouble x
      = JSNum.fin ((JSNum.roundHalfEven (x / 2 ^ JSNum.ulpExp x) : ℚ) * 2 ^ JSNum.ulpExp x) ∧
    JSNum.ulpExp x = Int.log 2 x - 52 ∧
    |(JSNum.roundHalfEven (x / 2 ^ JSNum.ulpExp x) : ℚ) * 2 ^ JSNum.ulpExp x - x| ≤ x / 2 ^ 53 := by
  have hpos : 0 < x := lt_of_lt_of_le (zpow_pos (by norm_num) _) hlo
  have hne : x ≠ 0 := ne_of_gt hpos
  have habs : |x| = x := abs_of_pos hpos
  have he1 : (-1022 : ℤ) ≤ Int.log 2 x :=
    (Int.zpow_le_iff_le_log (by norm_num) hpos).1 (by exact_mod_cast hlo)
  have he2 : (2 : ℚ) ^ Int.log 2 x ≤ x := by
    have := Int.zpow_log_le_self (b := 2) (r := x) (by norm_num) hpos
    exact_mod_cast this
  have hk : JSNum.ulpExp x = Int.log 2 x - 52 := by
    simp only [JSNum.ulpExp, habs, max_eq_left he1]
  have hkpos : (0 : ℚ) < 2 ^ JSNum.ulpExp x := zpow_pos (by norm_num) _
  have hkle : (2 : ℚ) ^ JSNum.ulpExp x ≤ x / 2 ^ 52 := by
    rw [hk, zpow_sub₀ (by norm_num : (2 : ℚ) ≠ 0)]
    have : (2 : ℚ) ^ (52 : ℤ) = 2 ^ 52 := by norm_num
    rw [this]
    exact div_le_div_of_nonneg_right he2 (by positivity)
  have herr := roundHalfEven_err (x / 2 ^ JSNum.ulpExp x)
  have hr : |(JSNum.roundHalfEven (x / 2 ^ JSNum.ulpExp x) : ℚ) * 2 ^ JSNum.ulpExp x - x|
      ≤ x / 2 ^ 53 := by
    have e1 : (JSNum.roundHalfEven (x / 2 ^ JSNum.ulpExp x) : ℚ) * 2 ^ JSNum.ulpExp x - x
        = ((JSNum.roundHalfEven (x / 2 ^ JSNum.ulpExp x) : ℚ) - x / 2 ^ JSNum.ulpExp x)
            * 2 ^ JSNum.ulpExp x := by
      field_simp
    rw [e1, abs_mul, abs_of_pos hkpos]
    calc |(JSNum.roundHalfEven (x / 2 ^ JSNum.ulpExp x) : ℚ) - x / 2 ^ JSNum.ulpExp x|
            * 2 ^ JSNum.ulpExp x
        ≤ 1 / 2 * 2 ^ JSNum.ulpExp x := mul_le_mul_of_nonneg_right herr (le_of_lt hkpos)
      _ ≤ 1 / 2 * (x / 2 ^ 52) := mul_le_mul_of_nonneg_left hkle (by norm_num)
      _ = x / 2 ^ 53 := by ring
  refine ⟨?_, hk, hr⟩
  have hfin : ¬ (2 : ℚ) ^ (1024 : ℤ)
      ≤ |(JSNum.roundHalfEven (x / 2 ^ JSNum.ulpExp x) : ℚ) * 2 ^ JSNum.ulpExp x| := by
    rw [not_le, abs_lt]
    have := abs_le.1 hr
    have h1024 : (2 : ℚ) ^ (1024 : ℤ) = 2 * 2 ^ (1023 : ℤ) := by
      rw [show (1024 : ℤ) = 1 + 1023 by norm_num, zpow_add₀ (by norm_num : (2 : ℚ) ≠ 0)]
      norm_num
    constructor <;> linarith [zpow_pos (by norm_num : (0 : ℚ) < 2) (1023 : ℤ)]
  simp only [JSNum.roundDouble, hne, if_false, hfin]

/-- The rounded value of a number with binary exponent `e` in the normal range,
from the rounding of its significand. -/
theorem roundDouble_eval (x : ℚ) (e n : ℤ) (hlo : (2 : ℚ) ^ e ≤ x) (hhi : x < (2 : ℚ) ^ (e + 1))
    (he1 : -1022 ≤ e) (he2 : e ≤ 1022)
    (hn : JSNum.roundHalfEven (x / 2 ^ (e - 52)) = n) :
    JSNum.roundDouble x = JSNum.fin ((n : ℚ) * 2 ^ (e - 52)) := by
  have hlog := log2_of_bounds x e hlo hhi
  have h1 : (2 : ℚ) ^ (-1022 : ℤ) ≤ x :=
    le_trans (zpow_le_zpow_right₀ (by norm_num) he1) hlo
  have h2 : x ≤ (2 : ℚ) ^ (1023 : ℤ) :=
    le_trans (le_of_lt hhi) (zpow_le_zpow_right₀ (by norm_num) (by omega))
  obtain ⟨hr, hk, _⟩ := roundDouble_normal x h1 h2
  rw [hr, hk, hlog, hn]

theorem dbl07_bounds : (6999 : ℚ) / 10000 < JSNum.dbl07 ∧ JSNum.dbl07 < 7 / 10 := by
  unfold JSNum.dbl07
  rw [Rat.mkRat_eq_div]
  constructor <;> norm_num

/-- The product `limit * 0.7` for a limit in [1, 10]: a finite number within
`2^-53` (relatively) of the exact product with the double 0.7, positive and
below the limit. -/
theorem mul07_range (l : ℚ) (h1 : 1 ≤ l) (h2 : l ≤ 10) :
    ∃ p, JSNum.mul07 (JSNum.fin l) = JSNum.fin p ∧
      |p - l * JSNum.dbl07| ≤ l * JSNum.dbl07 / 2 ^ 53 ∧ 0 < p ∧ p < l := by
  obtain ⟨hd1, hd2⟩ := dbl07_bounds
  have hx1 : (1 : ℚ) / 2 ≤ l * JSNum.dbl07 := by nlinarith
  have hx2 : l * JSNum.dbl07 ≤ 8 := by nlinarith
  have hlo : (2 : ℚ) ^ (-1022 : ℤ) ≤ l * JSNum.dbl07 := by
    have hmono : (2 : ℚ) ^ (-1022 : ℤ) ≤ 2 ^ (-1 : ℤ) :=
      zpow_le_zpow_right₀ (by norm_num) (by norm_num)
    have h12 : (2 : ℚ) ^ (-1 : ℤ) = 1 / 2 := by norm_num
    exact le_trans hmono (by rw [h12]; exact hx1)
  have hhi : l * JSNum.dbl07 ≤ (2 : ℚ) ^ (1023 : ℤ) := by
    have hmono : (2 : ℚ) ^ (3 : ℤ) ≤ 2 ^ (1023 : ℤ) :=
      zpow_le_zpow_right₀ (by norm_num) (by norm_num)
    have h8 : (2 : ℚ) ^ (3 : ℤ) = 8 := by norm_num
    exact le_trans (by rw [h8]; exact hx2) hmono
  obtain ⟨hr, _, herr⟩ := roundDouble_normal (l * JSNum.dbl07) hlo hhi
  refine ⟨_, hr, herr, ?_, ?_⟩
  · have := (abs_le.1 herr).1
    linarith
  · have := (abs_le.1 herr).2
    nlinarith

theorem swrTone_fin (q l p : ℚ) (hq : 0 ≤ q) (hp : JSNum.mul07 (JSNum.fin l) = JSNum.fin p) :
    swrTone (JSVal.num (JSNum.fin q)) (some (JSNum.fin l)) =
      if l ≤ q then "bad" else if max (3 / 2) p ≤ q then "warn" else "good" := by
  have hq2 : ¬ q < 0 := not_lt.2 hq
  simp [swrTone, JSNum.isFinite, JSNum.lt, JSNum.ge, JSNum.le, hp, mathMax_fin, hq2]

/-- The product `2 * 0.7` in binary64 is exactly twice the double 0.7. -/
theorem mul07_two : JSNum.mul07 (JSNum.fin 2) = JSNum.fin (2 * JSNum.dbl07) := by
  obtain ⟨hd1, hd2⟩ := dbl07_bounds
  have hy : 2 * JSNum.dbl07 / 2 ^ ((0 : ℤ) - 52) = ((6305039478318694 : ℤ) : ℚ) := by
    unfold JSNum.dbl07
    rw [Rat.mkRat_eq_div]
    norm_num
  have hn : JSNum.roundHalfEven (2 * JSNum.dbl07 / 2 ^ ((0 : ℤ) - 52)) = 6305039478318694 := by
    rw [hy, roundHalfEven_int]
  have h := roundDouble_eval (2 * JSNum.dbl07) 0 6305039478318694
    (by norm_num; linarith) (by norm_num; linarith) (by norm_num) (by norm_num) hn
  have hv : ((6305039478318694 : ℤ) : ℚ) * 2 ^ ((0 : ℤ) - 52) = 2 * JSNum.dbl07 := by
    unfold JSNum.dbl07
    rw [Rat.mkRat_eq_div]
    norm_num
  rw [hv] at h
  exact h

/-- The product `3 * 0.7` in binary64 is 2.0999999999999996, one unit in the last
place below the double 2.1: the exact product lies halfway between two
doubles and the tie goes to the even significand. -/
theorem mul07_three :
    JSNum.mul07 (JSNum.fin 3) = JSNum.fin (mkRat 1182194902184755 562949953421312) := by
  obtain ⟨hd1, hd2⟩ := dbl07_bounds
  have hy : 3 * JSNum.dbl07 / 2 ^ ((1 : ℤ) - 52)
      = ((4728779608739020 : ℤ) : ℚ) + 1 / 2 := by
    unfold JSNum.dbl07
    rw [Rat.mkRat_eq_div]
    norm_num
  have hn : JSNum.roundHalfEven (3 * JSNum.dbl07 / 2 ^ ((1 : ℤ) - 52)) = 4728779608739020 := by
    rw [hy, roundHalfEven_tie_even _ (by norm_num)]
  have h := roundDouble_eval (3 * JSNum.dbl07) 1 4728779608739020
    (by norm_num; linarith) (by norm_num; linarith) (by norm_num) (by norm_num) hn
  have hv : ((4728779608739020 : ℤ) : ℚ) * 2 ^ ((1 : ℤ) - 52)
      = mkRat 1182194902184755 562949953421312 := by
    rw [Rat.mkRat_eq_div]
    norm_num
  rw [hv] at h
  exact h

/-- C8 as stated fails: with the limit 2, inside the configurable range
[1.0, 10.0], the product `0.7 * limit` is the double 1.4, below the floor 1.5
of the warning band, and `swrTone` answers `'good'`, not `'warn'`. -/
theorem swrTone_point7_limit_two_is_good :
    (1 : ℚ) ≤ 2 ∧ (2 : ℚ) ≤ 10 ∧
    JSNum.mul07 (JSNum.fin 2) = JSNum.fin (2 * JSNum.dbl07) ∧
    swrTone (JSVal.num (JSNum.fin (2 * JSNum.dbl07))) (some (JSNum.fin 2)) = "good" ∧
    swrTone (JSVal.num (JSNum.fin (2 * JSNum.dbl07))) (some (JSNum.fin 2)) ≠ "warn" := by
  obtain ⟨hd1, hd2⟩ := dbl07_bounds
  have h : swrTone (JSVal.num (JSNum.fin (2 * JSNum.dbl07))) (some (JSNum.fin 2)) = "good" := by
    rw [swrTone_fin _ _ _ (by linarith) mul07_two]
    have h1 : ¬ (2 : ℚ) ≤ 2 * JSNum.dbl07 := by
      intro hle; linarith
    have h2 : ¬ max (3 / 2) (2 * JSNum.dbl07) ≤ 2 * JSNum.dbl07 := by
      intro hle
      have := le_trans (le_max_left _ _) hle
      linarith
    rw [if_neg h1, if_neg h2]
  refine ⟨by norm_num, by norm_num, mul07_two, h, ?_⟩
  rw [h]
  decide

/-- C8, amended: for every SWR limit in [1.0, 10.0], with `p` the product
`limit * 0.7` as the code computes it in binary64 (a finite number within
`2^-53`, relatively, of the exact product with the double 0.7):
`swrTone(limit, limit)` is `'bad'`; `swrTone(p, limit)` is `'warn'` when
`p >= 1.5` (as for every limit from 2.15 up) and `'good'` when `p < 1.5` (as
for every limit up to 2.14); and `swrTone(s, limit)` is `'good'` for every `s`
with `0 <= s < p`. -/
theorem swrTone_boundaries (l : ℚ) (h1 : 1 ≤ l) (h2 : l ≤ 10) :
    ∃ p, JSNum.mul07 (JSNum.fin l) = JSNum.fin p ∧
      |p - l * JSNum.dbl07| ≤ l * JSNum.dbl07 / 2 ^ 53 ∧
      swrTone (JSVal.num (JSNum.fin l)) (some (JSNum.fin l)) = "bad" ∧
      (3 / 2 ≤ p → swrTone (JSVal.num (JSNum.fin p)) (some (JSNum.fin l)) = "warn") ∧
      (p < 3 / 2 → swrTone (JSVal.num (JSNum.fin p)) (some (JSNum.fin l)) = "good") ∧
      (∀ s, 0 ≤ s → s < p →
        swrTone (JSVal.num (JSNum.fin s)) (some (JSNum.fin l)) = "good") ∧
      (43 / 20 ≤ l → 3 / 2 ≤ p) ∧ (l ≤ 107 / 50 → p < 3 / 2) := by
  obtain ⟨p, hp, herr, hpos, hlt⟩ := mul07_range l h1 h2
  have hnl : ¬ l ≤ p := not_le.2 hlt
  obtain ⟨hd1, hd2⟩ := dbl07_bounds
  have hsmall : l * JSNum.dbl07 / 2 ^ 53 ≤ 1 / 1000 := by
    have hx : l * JSNum.dbl07 ≤ 8 := by nlinarith
    have h53 : (0 : ℚ) < 2 ^ 53 := by positivity
    rw [div_le_iff₀ h53]
    have : (8 : ℚ) ≤ 1 / 1000 * 2 ^ 53 := by norm_num
    linarith
  refine ⟨p, hp, herr, ?_, ?_, ?_, ?_, ?_, ?_⟩
  rotate_left 4
  · intro hl
    have hx : (43 / 20 : ℚ) * (6999 / 10000) ≤ l * JSNum.dbl07 := by nlinarith
    have := (abs_le.1 herr).1
    norm_num at hx
    linarith
  · intro hl
    have hx : l * JSNum.dbl07 ≤ (107 / 50 : ℚ) * (7 / 10) := by nlinarith
    have := (abs_le.1 herr).2
    norm_num at hx
    linarith
  · rw [swrTone_fin l l p (by linarith) hp, if_pos (le_refl l)]
  · intro h
    have hm : max (3 / 2) p ≤ p := max_le h (le_refl p)
    rw [swrTone_fin p l p (le_of_lt hpos) hp, if_neg hnl, if_pos hm]
  · intro h
    have hm : ¬ max (3 / 2) p ≤ p := by
      intro hle
      have := le_trans (le_max_left _ _) hle
      linarith
    rw [swrTone_fin p l p (le_of_lt hpos) hp, if_neg hnl, if_neg hm]
  · intro s hs hsp
    have hl2 : ¬ l ≤ s := by
      intro h; linarith
    have hm : ¬ max (3 / 2) p ≤ s := by
      intro hle
      have := le_trans (le_max_right _ _) hle
      linarith
    rw [swrTone_fin s l p hs hp, if_neg hl2, if_neg hm]

theorem swrTone_boundaries_witness :
    (1 : ℚ) ≤ 3 ∧ (3 : ℚ) ≤ 10 ∧
    JSNum.mul07 (JSNum.fin 3) = JSNum.fin (mkRat 1182194902184755 562949953421312) ∧
    ∃ p, JSNum.mul07 (JSNum.fin 3) = JSNum.fin p ∧
      |p - 3 * JSNum.dbl07| ≤ 3 * JSNum.dbl07 / 2 ^ 53 ∧
      swrTone (JSVal.num (JSNum.fin 3)) (some (JSNum.fin 3)) = "bad" ∧
      (3 / 2 ≤ p → swrTone (JSVal.num (JSNum.fin p)) (some (JSNum.fin 3)) = "warn") ∧
      (p < 3 / 2 → swrTone (JSVal.num (JSNum.fin p)) (some (JSNum.fin 3)) = "good") ∧
      (∀ s, 0 ≤ s → s < p →
        swrTone (JSVal.num (JSNum.fin s)) (some (JSNum.fin 3)) = "good") ∧
      (43 / 20 ≤ (3 : ℚ) → 3 / 2 ≤ p) ∧ ((3 : ℚ) ≤ 107 / 50 → p < 3 / 2) :=
  ⟨by norm_num, by norm_num, mul07_three, swrTone_boundaries 3 (by norm_num) (by norm_num)⟩

/-- C9: for every `swr` value and every numeric limit, `swrTone(swr, limit)` is
`'muted'` when `swr` is not a finite number `>= 0` (null, absent, not a
number, `NaN`, infinite or negative); otherwise `'bad'` when `swr >= limit`;
otherwise `'warn'` when `swr >= Math.max(1.5, limit * 0.7)`, the product being
the binary64 one; otherwise `'good'`. Exactly one of the four tones is
returned, the `'muted'` test comes first, and an omitted limit is 3.0. At the
default limit 3 the product is 2.0999999999999996 and that SWR is `'warn'`. -/
theorem swrTone_spec (swr : JSVal) (limit : JSNum) :
    ((∀ q, swr = JSVal.num (JSNum.fin q) → q < 0) → swrTone swr (some limit) = "muted") ∧
    (∀ q, swr = JSVal.num (JSNum.fin q) → 0 ≤ q →
      swrTone swr (some limit) =
        if (JSNum.fin q).ge limit then "bad"
        else if (JSNum.fin q).ge (JSNum.mathMax (JSNum.fin (3 / 2)) limit.mul07) then "warn"
        else "good") ∧
    (∀ q l p, swr = JSVal.num (JSNum.fin q) → 0 ≤ q → limit = JSNum.fin l →
      JSNum.mul07 (JSNum.fin l) = JSNum.fin p →
      swrTone swr (some limit) =
        if l ≤ q then "bad" else if max (3 / 2) p ≤ q then "warn" else "good") ∧
    (swrTone swr (some limit) = "muted" ∨ swrTone swr (some limit) = "bad" ∨
      swrTone swr (some limit) = "warn" ∨ swrTone swr (some limit) = "good") ∧
    swrTone swr none = swrTone swr (some (JSNum.fin 3)) ∧
    JSNum.mul07 (JSNum.fin 3) = JSNum.fin (mkRat 1182194902184755 562949953421312) ∧
    swrTone (JSVal.num (JSNum.fin (mkRat 1182194902184755 562949953421312))) none = "warn" := by
  refine ⟨?_, ?_, ?_, ?_, rfl, mul07_three, ?_⟩
  · intro h
    cases swr <;> try rfl
    case num n =>
      cases n <;> try rfl
      case fin q =>
        have hq : q < 0 := h q rfl
        simp [swrTone, JSNum.isFinite, JSNum.lt, hq]
  · intro q hs hq
    subst hs
    have hq2 : ¬ q < 0 := not_lt.2 hq
    simp [swrTone, JSNum.isFinite, JSNum.lt, hq2]
  · intro q l p hs hq hl hp
    subst hs; subst hl
    exact swrTone_fin q l p hq hp
  · cases swr <;> try exact Or.inl rfl
    case num n =>
      simp only [swrTone, Option.getD_some]
      split_ifs
      · exact Or.inl rfl
      · exact Or.inr (Or.inl rfl)
      · exact Or.inr (Or.inr (Or.inl rfl))
      · exact Or.inr (Or.inr (Or.inr rfl))
  · have hpos : (0 : ℚ) ≤ mkRat 1182194902184755 562949953421312 := by
      rw [Rat.mkRat_eq_div]; norm_num
    have h3 : swrTone (JSVal.num (JSNum.fin (mkRat 1182194902184755 562949953421312))) none
        = swrTone (JSVal.num (JSNum.fin (mkRat 1182194902184755 562949953421312)))
            (some (JSNum.fin 3)) := rfl
    rw [h3, swrTone_fin _ 3 _ hpos mul07_three]
    have h1 : ¬ (3 : ℚ) ≤ mkRat 1182194902184755 562949953421312 := by
      rw [Rat.mkRat_eq_div]; norm_num
    have h2 : max (3 / 2 : ℚ) (mkRat 1182194902184755 562949953421312)
        ≤ mkRat 1182194902184755 562949953421312 := by
      apply max_le _ (le_refl _)
      rw [Rat.mkRat_eq_div]; norm_num
    rw [if_neg h1, if_pos h2]

/-! ## Activity in the hold engine -/

theorem tickSuccess_rfd_inactive (p : Prefs) (h : p.holdEnabled = true) (j : JSVal)
    (s : HookState) (i : Fin 4) (hact : pollActive (p, j) i = false) :
    (tickSuccess p j s).hold.rfdAvgWatts i = s.hold.rfdAvgWatts i ∧
    (tickSuccess p j s).hold.rfdPeakWatts i = s.hold.rfdPeakWatts i := by
  have hv := applyHold_view p h s.hold (normalize j).values i
  have h1 := congrArg ChanView.rAvg hv
  have h2 := congrArg ChanView.rPeak hv
  simp only [pollActive, holdIsActive, curAvg] at hact
  simp only [chanView, chanStep, hact] at h1 h2
  exact ⟨by simpa [tickSuccess] using h1, by simpa [tickSuccess] using h2⟩

/-- C10 as stated fails: with threshold 1 W and channel 0 silent in every poll,
channel 1 is nevertheless treated as active by the hold step. It fills its
hold buffers at the first poll, latches at the second, and at the third
(channel 0 still below the threshold) clears its latch and updates its
buffers. -/
theorem hold_step_ignores_sense_channel :
    (∀ q ∈ senseOffOtherOn, pollActive q 0 = false) ∧
    (runPolls HookState.init (senseOffOtherOn.take 1)).hold.active 1 = true ∧
    (runPolls HookState.init (senseOffOtherOn.take 1)).hold.avgWatts 1 = JSNum.fin 5 ∧
    (runPolls HookState.init (senseOffOtherOn.take 2)).hold.latched 1 = true ∧
    (runPolls HookState.init (senseOffOtherOn.take 2)).hold.peakWatts 1 = JSNum.fin 7 ∧
    (runPolls HookState.init senseOffOtherOn).hold.active 1 = true ∧
    (runPolls HookState.init senseOffOtherOn).hold.latched 1 = false ∧
    (runPolls HookState.init senseOffOtherOn).hold.avgWatts 1 = JSNum.fin 9 ∧
    (runPolls HookState.init senseOffOtherOn).hold.peakWatts 1 = JSNum.fin 12 := by
  decide

/-- C10, amended: in the hold step every channel `i`, sense or not, is treated as
active exactly when its own normalised average power is `>=` the threshold;
whenever the channel's own average is below the threshold it does not update
any of its hold buffers and does not clear its latch, whatever the power of
channel 0 is. -/
theorem hold_activity_is_per_channel (p : Prefs) (h : p.holdEnabled = true) (j : JSVal)
    (s : HookState) (i : Fin 4) :
    (tickSuccess p j s).hold.active i
      = (curAvg (normalize j).values i).ge (effThreshold p.rfThresholdWatts) ∧
    ((curAvg (normalize j).values i).ge (effThreshold p.rfThresholdWatts) = false →
      (tickSuccess p j s).hold.avgWatts i = s.hold.avgWatts i ∧
      (tickSuccess p j s).hold.peakWatts i = s.hold.peakWatts i ∧
      (tickSuccess p j s).hold.rfdAvgWatts i = s.hold.rfdAvgWatts i ∧
      (tickSuccess p j s).hold.rfdPeakWatts i = s.hold.rfdPeakWatts i ∧
      (s.hold.latched i = true → (tickSuccess p j s).hold.latched i = true)) := by
  refine ⟨tickSuccess_active p h j s i, ?_⟩
  intro hact
  have hpa : pollActive (p, j) i = false := hact
  have hn : ¬ pollActive (p, j) i = true := by rw [hpa]; decide
  have hr := tickSuccess_rfd_inactive p h j s i hpa
  refine ⟨?_, ?_, hr.1, hr.2, ?_⟩
  · rw [tickSuccess_avg p h, if_neg hn]
  · rw [tickSuccess_peak p h, if_neg hn]
  · intro hl
    rw [tickSuccess_latched p h, if_neg hn, hl, Bool.or_true]

theorem hold_activity_is_per_channel_witness :
    holdOnPrefs.holdEnabled = true ∧
    (tickSuccess holdOnPrefs keyAgain.2 (runPolls HookState.init keyThenUnkey)).hold.active 1
      = false ∧
    (tickSuccess holdOnPrefs keyAgain.2 (runPolls HookState.init keyThenUnkey)).hold.avgWatts 1
      = JSNum.fin (-1) :=
  ⟨rfl,
    (hold_activity_is_per_channel holdOnPrefs rfl keyAgain.2
      (runPolls HookState.init keyThenUnkey) 1).1.trans (by decide),
    (((hold_activity_is_per_channel holdOnPrefs rfl keyAgain.2
      (runPolls HookState.init keyThenUnkey) 1).2 (by decide)).1).trans (by decide)⟩

/-! ## The panel's activity predicate -/

/-- C11 as stated fails: with 5 W on channel 0, 0 W on channel 1 and threshold
1 W, the panel's `isActive(1)` is true although channel 1's own average power
is below the threshold. -/
theorem panel_isActive_ignores_own_power :
    activeNoSwr.avgWatts = [JSNum.fin 5, JSNum.fin 0, JSNum.fin 0, JSNum.fin 0] ∧
    panelRfThr (JSNum.fin 1) = JSNum.fin 1 ∧
    (JSNum.fin 0).ge (panelRfThr (JSNum.fin 1)) = false ∧
    isActive (some activeNoSwr) (panelRfThr (JSNum.fin 1)) 1 = true := by
  decide

/-- C11, amended: for every snapshot, threshold and channel `i`, the panel's
`isActive(i)` is true exactly when the average power of the sense channel 0
is a number `>=` the threshold. For `i = 0` that is the channel's own power;
for `i != 0` the activity of the sense channel replaces the channel's own
power, which is not consulted. -/
theorem panel_isActive_is_sense_activity (values : Option Values) (rfThr : JSNum) (i : Nat) :
    (isActive values rfThr i = true ↔
      ∃ v a, values = some v ∧ v.avgWatts[0]? = some a ∧ a.ge rfThr = true) ∧
    isActive values rfThr i = isActive values rfThr 0 := by
  have key : ∀ k, isActive values rfThr k = true ↔
      ∃ v a, values = some v ∧ v.avgWatts[0]? = some a ∧ a.ge rfThr = true := by
    intro k
    cases values with
    | none => by_cases hk : k = 0 <;> simp [isActive, hk]
    | some v =>
      cases ha : v.avgWatts[0]? with
      | none => by_cases hk : k = 0 <;> simp [isActive, hk, ha]
      | some a => by_cases hk : k = 0 <;> simp [isActive, hk, ha]
  refine ⟨key i, ?_⟩
  have h1 := key i
  have h2 := key 0
  cases hi : isActive values rfThr i <;> cases h0 : isActive values rfThr 0 <;> simp_all

/-! ## Clamped configuration values -/

theorem mathMax_zero_one : JSNum.mathMax (JSNum.fin 0) (JSNum.fin 1) = JSNum.fin 1 := by
  decide

/-- C15: the threshold evaluated at a configured 0 W. The clamp admits 0 (a
configured -5 W gives 0), yet a configured 0 gives 1 W in the hold engine and
in the panel, not `max(0, 0) = 0`. With hold enabled and averages
`[0.5, 1, 0, 0.75]`, channel 0 reads 0.5 W, which is `>= max(0, 0)`, and is
not treated as active, neither by the hold step nor by the panel; channel 3
(0.75 W) is not active either, channel 1 (1 W) is. -/
theorem threshold_zero_becomes_default :
    zeroThresholdPrefs.rfThresholdWatts = JSNum.fin 0 ∧
    effThreshold (JSNum.fin 0) = JSNum.fin 1 ∧
    panelRfThr (JSNum.fin 0) = JSNum.fin 1 ∧
    JSNum.mathMax (JSNum.fin 0) (JSNum.fin 0) = JSNum.fin 0 ∧
    effThreshold (JSNum.fin 0) ≠ JSNum.mathMax (JSNum.fin 0) (JSNum.fin 0) ∧
    panelRfThr (JSNum.fin 0) ≠ JSNum.mathMax (JSNum.fin 0) (JSNum.fin 0) ∧
    effThreshold (JSNum.fin (-5)) = JSNum.fin 0 ∧
    curAvg (normalize halfWattPayload).values 0 = JSNum.fin (mkRat 1 2) ∧
    (JSNum.fin (mkRat 1 2)).ge (JSNum.mathMax (JSNum.fin 0) (JSNum.fin 0)) = true ∧
    pollActive (zeroThresholdPrefs, halfWattPayload) 0 = false ∧
    (tickSuccess zeroThresholdPrefs halfWattPayload HookState.init).hold.active 0 = false ∧
    (tickSuccess zeroThresholdPrefs halfWattPayload HookState.init).hold.active 1 = true ∧
    (tickSuccess zeroThresholdPrefs halfWattPayload HookState.init).hold.active 3 = false ∧
    (tickSuccess zeroThresholdPrefs halfWattPayload HookState.init).hold.avgWatts 0
      = JSNum.fin (-1) ∧
    isActive (some (normalize halfWattPayload).values)
      (panelRfThr zeroThresholdPrefs.rfThresholdWatts) 0 = false := by
  decide

/-- The threshold of the hold engine and of the panel, case by case: they are the
same; a truthy configured value `t` gives `Math.max(0, t)`; the falsy values 0
and `NaN` give the default. -/
theorem threshold_clamp (t : JSNum) :
    panelRfThr t = effThreshold t ∧
    (t.truthy = true → effThreshold t = JSNum.mathMax (JSNum.fin 0) t) ∧
    (t.truthy = false → effThreshold t = JSNum.fin 1) ∧
    (t.truthy = false ↔ t = JSNum.fin 0 ∨ t = JSNum.nan) ∧
    (∀ q : ℚ, q ≠ 0 → effThreshold (JSNum.fin q) = JSNum.fin (max 0 q)) := by
  refine ⟨rfl, ?_, ?_, ?_, ?_⟩
  · intro h
    simp [effThreshold, h]
  · intro h
    simp [effThreshold, h, defaultRfThresholdWatts, mathMax_zero_one]
  · cases t <;> simp [JSNum.truthy]
  · intro q hq
    simp [effThreshold, JSNum.truthy, hq, mathMax_fin]

/-- C16 as stated fails: a configured poll interval of 0 ms gives the timer the
period 200 ms, not `max(100, 0) = 100`. -/
theorem poll_zero_becomes_default :
    (startLoop zeroPollPrefs).timer = some (JSNum.fin 200) ∧
    JSNum.mathMax (JSNum.fin 100) zeroPollPrefs.pollMs = JSNum.fin 100 ∧
    (startLoop zeroPollPrefs).timer ≠ some (JSNum.mathMax (JSNum.fin 100) zeroPollPrefs.pollMs) := by
  decide

/-- C16, amended: for every numeric configured poll interval `p` other than 0 and
`NaN`, the period passed to the polling timer is `Math.max(100, p)`; a
configured 0 or `NaN` is replaced by the default 200 ms before the clamp,
giving 200. -/
theorem poll_period_clamp (prefs : Prefs) :
    (startLoop prefs).timer = some (pollPeriod prefs.pollMs) ∧
    (prefs.pollMs.truthy = true →
      (startLoop prefs).timer = some (JSNum.mathMax (JSNum.fin 100) prefs.pollMs)) ∧
    (prefs.pollMs.truthy = false → (startLoop prefs).timer = some (JSNum.fin 200)) ∧
    (prefs.pollMs.truthy = false ↔ prefs.pollMs = JSNum.fin 0 ∨ prefs.pollMs = JSNum.nan) ∧
    (∀ q : ℚ, q ≠ 0 → prefs.pollMs = JSNum.fin q →
      (startLoop prefs).timer = some (JSNum.fin (max 100 q))) := by
  refine ⟨rfl, ?_, ?_, ?_, ?_⟩
  · intro h
    simp [startLoop, pollPeriod, h]
  · intro h
    have : JSNum.mathMax (JSNum.fin 100) (JSNum.fin 200) = JSNum.fin 200 := by decide
    simp [startLoop, pollPeriod, h, defaultPollMs, this]
  · cases prefs.pollMs <;> simp [JSNum.truthy]
  · intro q hq hp
    simp [startLoop, pollPeriod, hp, JSNum.truthy, hq, mathMax_fin]

/-! ## Failed polls and arrival order -/

/-- C17: whenever the `try` block of `tick` throws (the fetch rejects, the status
is not 2xx, or the body does not decode) while the effect is alive and the
error is not an abort, afterwards `connected` is false and `error` holds the
text `String(e?.message || e)` of the error: its message when that is not
empty, its name otherwise, and `HTTP <status>` for a non-2xx status. `data`
and the hold record are what they were, and the cells of the effect, the
timer among them, are unchanged. -/
theorem failed_poll_keeps_state (prefs : Prefs) (o : Outcome) (e : JSError) (s : HookState)
    (l : Loop) (hthrown : o.thrown = some e) (halive : l.alive = true)
    (hname : e.name ≠ "AbortError") :
    (tick prefs o (s, l)).1.connected = false ∧
    (tick prefs o (s, l)).1.error = some (errorText e) ∧
    (e.message ≠ "" → (tick prefs o (s, l)).1.error = some e.message) ∧
    (e.message = "" → (tick prefs o (s, l)).1.error = some e.name) ∧
    (∀ status, o = Outcome.badStatus status →
      (tick prefs o (s, l)).1.error = some ("HTTP " ++ toString status)) ∧
    (tick prefs o (s, l)).1.data = s.data ∧
    (tick prefs o (s, l)).1.hold = s.hold ∧
    (tick prefs o (s, l)).2 = l ∧
    (tick prefs o (s, l)).2.timer = l.timer := by
  have hn : (e.name == "AbortError") = false := by
    simpa using hname
  have herr : (tick prefs o (s, l)).1.error = some (errorText e) := by
    cases o with
    | ok j => simp [Outcome.thrown] at hthrown
    | fetchRejected e1 =>
      simp only [Outcome.thrown, Option.some.injEq] at hthrown
      subst hthrown
      simp [tick, Outcome.thrown, halive, hn]
    | badStatus status =>
      simp only [Outcome.thrown, Option.some.injEq] at hthrown
      subst hthrown
      simp [tick, Outcome.thrown, halive]
    | jsonRejected e1 =>
      simp only [Outcome.thrown, Option.some.injEq] at hthrown
      subst hthrown
      simp [tick, Outcome.thrown, halive, hn]
  have hrest : (tick prefs o (s, l)).1.connected = false ∧
      (tick prefs o (s, l)).1.data = s.data ∧ (tick prefs o (s, l)).1.hold = s.hold ∧
      (tick prefs o (s, l)).2 = l := by
    cases o with
    | ok j => simp [Outcome.thrown] at hthrown
    | fetchRejected e1 =>
      simp only [Outcome.thrown, Option.some.injEq] at hthrown
      subst hthrown
      simp [tick, Outcome.thrown, halive, hn]
    | badStatus status =>
      simp only [Outcome.thrown, Option.some.injEq] at hthrown
      subst hthrown
      simp [tick, Outcome.thrown, halive]
    | jsonRejected e1 =>
      simp only [Outcome.thrown, Option.some.injEq] at hthrown
      subst hthrown
      simp [tick, Outcome.thrown, halive, hn]
  refine ⟨hrest.1, herr, ?_, ?_, ?_, hrest.2.1, hrest.2.2.1, hrest.2.2.2, ?_⟩
  · intro hm
    rw [herr]
    simp [errorText, hm]
  · intro hm
    rw [herr]
    simp [errorText, hm]
  · intro status ho
    subst ho
    simp only [Outcome.thrown, Option.some.injEq] at hthrown
    subst hthrown
    rw [herr]
    have hne : "HTTP " ++ toString status ≠ "" := by
      intro h
      have hlen := congrArg String.length h
      rw [String.length_append] at hlen
      have h5 : "HTTP ".length = 5 := by decide
      have h0 : "".length = 0 := by decide
      omega
    simp [errorText, hne]
  · rw [hrest.2.2.2]

theorem failed_poll_keeps_state_witness :
    (Outcome.badStatus 503).thrown
      = some { name := "Error", message := "HTTP " ++ toString 503 } ∧
    (startLoop holdOnPrefs).alive = true ∧
    (tick holdOnPrefs (Outcome.badStatus 503)
      (runPolls HookState.init keyThenUnkey, startLoop holdOnPrefs)).1.connected = false ∧
    (tick holdOnPrefs (Outcome.badStatus 503)
      (runPolls HookState.init keyThenUnkey, startLoop holdOnPrefs)).1.error
      = some "HTTP 503" ∧
    (tick holdOnPrefs (Outcome.badStatus 503)
      (runPolls HookState.init keyThenUnkey, startLoop holdOnPrefs)).1.data
      = (runPolls HookState.init keyThenUnkey).data ∧
    (tick holdOnPrefs (Outcome.badStatus 503)
      (runPolls HookState.init keyThenUnkey, startLoop holdOnPrefs)).1.hold
      = (runPolls HookState.init keyThenUnkey).hold ∧
    (tick holdOnPrefs (Outcome.badStatus 503)
      (runPolls HookState.init keyThenUnkey, startLoop holdOnPrefs)).2.timer
      = some (JSNum.fin 200) :=
  ⟨rfl, rfl,
    (failed_poll_keeps_state holdOnPrefs (Outcome.badStatus 503)
      { name := "Error", message := "HTTP " ++ toString 503 }
      (runPolls HookState.init keyThenUnkey) (startLoop holdOnPrefs) rfl rfl (by decide)).1,
    ((failed_poll_keeps_state holdOnPrefs (Outcome.badStatus 503)
      { name := "Error", message := "HTTP " ++ toString 503 }
      (runPolls HookState.init keyThenUnkey) (startLoop holdOnPrefs) rfl rfl
      (by decide)).2.2.2.2.1 503 rfl).trans (by decide),
    (failed_poll_keeps_state holdOnPrefs (Outcome.badStatus 503)
      { name := "Error", message := "HTTP " ++ toString 503 }
      (runPolls HookState.init keyThenUnkey) (startLoop holdOnPrefs) rfl rfl
      (by decide)).2.2.2.2.2.1,
    (failed_poll_keeps_state holdOnPrefs (Outcome.badStatus 503)
      { name := "Error", message := "HTTP " ++ toString 503 }
      (runPolls HookState.init keyThenUnkey) (startLoop holdOnPrefs) rfl rfl
      (by decide)).2.2.2.2.2.2.1,
    ((failed_poll_keeps_state holdOnPrefs (Outcome.badStatus 503)
      { name := "Error", message := "HTTP " ++ toString 503 }
      (runPolls HookState.init keyThenUnkey) (startLoop holdOnPrefs) rfl rfl
      (by decide)).2.2.2.2.2.2.2.2).trans (by decide)⟩

theorem tick_loop (prefs : Prefs) (o : Outcome) (st : HookState × Loop) :
    (tick prefs o st).2 = st.2 := by
  cases o <;> simp only [tick, Outcome.thrown] <;> split_ifs <;> rfl

theorem applyArrivals_loop (prefs : Prefs) (st : HookState × Loop)
    (arrivals : List (Nat × JSVal)) :
    (applyArrivals prefs st arrivals).2 = st.2 := by
  induction arrivals using List.reverseRecOn with
  | nil => rfl
  | append_singleton pre a ih =>
    simp only [applyArrivals, List.foldl_append, List.foldl_cons, List.foldl_nil] at ih ⊢
    rw [tick_loop, ih]

theorem applyArrivals_snoc (prefs : Prefs) (st : HookState × Loop)
    (pre : List (Nat × JSVal)) (a : Nat × JSVal) :
    applyArrivals prefs st (pre ++ [a])
      = tick prefs (Outcome.ok a.2) (applyArrivals prefs st pre) := by
  simp [applyArrivals, List.foldl_append]

/-- C18 as stated fails: with hold enabled, the response to poll 6 (50 W) is
applied first and the response to the older poll 5 (5 W) arrives after it;
the older response is not discarded, and the snapshot and the held average
then show the 5 W of poll 5, not the 50 W of poll 6. -/
theorem stale_response_is_applied :
    staleArrivals.map Prod.fst = [6, 5] ∧
    effAvg (applyArrivals holdOnPrefs (HookState.init, startLoop holdOnPrefs)
      (staleArrivals.take 1)).1 0 = some (JSNum.fin 50) ∧
    (applyArrivals holdOnPrefs (HookState.init, startLoop holdOnPrefs)
      (staleArrivals.take 1)).1.hold.avgWatts 0 = JSNum.fin 50 ∧
    effAvg (applyArrivals holdOnPrefs (HookState.init, startLoop holdOnPrefs)
      staleArrivals).1 0 = some (JSNum.fin 5) ∧
    (applyArrivals holdOnPrefs (HookState.init, startLoop holdOnPrefs)
      staleArrivals).1.hold.avgWatts 0 = JSNum.fin 5 := by
  decide

/-- C18, amended: responses are applied to state in arrival order. While the
effect is alive every decoded response is applied when it arrives, whatever
the number of the request it answers: the state after an arrival is the
successful-poll step of its body on the state left by the arrivals before it,
so a response to an older poll that arrives after a newer one is applied on
top of it (with hold disabled the snapshot is then that of the older poll). -/
theorem responses_applied_in_arrival_order (prefs : Prefs) (s : HookState) (l : Loop)
    (halive : l.alive = true) (pre : List (Nat × JSVal)) (n : Nat) (j : JSVal) :
    (applyArrivals prefs (s, l) (pre ++ [(n, j)])).1
      = tickSuccess prefs j (applyArrivals prefs (s, l) pre).1 ∧
    (prefs.holdEnabled = false →
      (applyArrivals prefs (s, l) (pre ++ [(n, j)])).1.data = some (normalize j)) := by
  have hl : (applyArrivals prefs (s, l) pre).2.alive = true := by
    rw [applyArrivals_loop]; exact halive
  have h1 : (applyArrivals prefs (s, l) (pre ++ [(n, j)])).1
      = tickSuccess prefs j (applyArrivals prefs (s, l) pre).1 := by
    rw [applyArrivals_snoc]
    simp only [tick, hl, Bool.not_true, Bool.false_eq_true, if_false]
  refine ⟨h1, ?_⟩
  intro hoff
  rw [h1]
  simp [tickSuccess, applyHold, hoff]

theorem responses_applied_in_arrival_order_witness :
    (startLoop holdOffPrefs).alive = true ∧
    (applyArrivals holdOffPrefs (HookState.init, startLoop holdOffPrefs)
      ([(6, payloadOf [50, 0, 0, 0] [100, 0, 0, 0] [2, 0, 0, 0])] ++
        [(5, payloadOf [5, 0, 0, 0] [5, 0, 0, 0] [1, 0, 0, 0])])).1.data
      = some (normalize (payloadOf [5, 0, 0, 0] [5, 0, 0, 0] [1, 0, 0, 0])) :=
  ⟨rfl,
    (responses_applied_in_arrival_order holdOffPrefs HookState.init (startLoop holdOffPrefs) rfl
      [(6, payloadOf [50, 0, 0, 0] [100, 0, 0, 0] [2, 0, 0, 0])] 5
      (payloadOf [5, 0, 0, 0] [5, 0, 0, 0] [1, 0, 0, 0])).2 rfl⟩

/-! ## Exclusive flags -/

theorem exclusive_init : HoldState.init.Exclusive := by
  intro i h
  exact absurd h.1 (by simp [HoldState.init])

theorem exclusive_tickSuccess (prefs : Prefs) (j : JSVal) (s : HookState)
    (h : s.hold.Exclusive) : (tickSuccess prefs j s).hold.Exclusive := by
  cases he : prefs.holdEnabled with
  | false =>
    have : (tickSuccess prefs j s).hold = HoldState.init := by
      simp [tickSuccess, applyHold, he]
    rw [this]
    exact exclusive_init
  | true =>
    intro i hi
    rw [tickSuccess_active prefs he, tickSuccess_latched prefs he] at hi
    obtain ⟨ha, hl⟩ := hi
    rw [if_pos ha] at hl
    simp only [Bool.and_eq_true] at hl
    exact h i hl

theorem exclusive_tick (prefs : Prefs) (o : Outcome) (st : HookState × Loop)
    (h : st.1.hold.Exclusive) : (tick prefs o st).1.hold.Exclusive := by
  cases o <;> simp only [tick, Outcome.thrown] <;> split_ifs <;>
    first
      | exact h
      | exact exclusive_tickSuccess prefs _ st.1 h

theorem exclusive_resetOne (k : Int) (hr : HoldState) (h : hr.Exclusive) :
    (resetOne k hr).Exclusive := by
  unfold resetOne
  split_ifs with hk
  · intro i hi
    by_cases hik : i = ⟨k.toNat, by omega⟩
    · subst hik
      have := hi.1
      simp at this
    · have h1 := hi.1
      have h2 := hi.2
      simp only [Function.update_noteq hik] at h1 h2
      exact h i ⟨h1, h2⟩
  · exact h

theorem exclusive_resetMeter (idx : JSVal) (s : HookState) (h : s.hold.Exclusive) :
    (resetMeter idx s).hold.Exclusive := by
  have hall : (([0, 1, 2, 3] : List Int).foldl (fun hr i => resetOne i hr) s.hold).Exclusive := by
    simp only [List.foldl_cons, List.foldl_nil]
    exact exclusive_resetOne _ _ (exclusive_resetOne _ _
      (exclusive_resetOne _ _ (exclusive_resetOne _ _ h)))
  cases idx <;> try exact hall
  case num n =>
    cases n <;> try exact hall
    case fin q => exact exclusive_resetOne _ _ h

/-- C19: in every state reached from the initial state by any sequence of polls
(successful or failed, with hold enabled or disabled, any payload, any
threshold) and `resetMeter` calls, no channel has both its active flag and
its latched flag true: each channel is INACTIVE (neither), ACTIVE (active
only) or LATCHED (latched only). -/
theorem active_latched_exclusive (evs : List Event) (i : Fin 4) :
    ¬ ((runEvents HookState.init evs).hold.active i = true ∧
       (runEvents HookState.init evs).hold.latched i = true) ∧
    (((runEvents HookState.init evs).hold.active i = false ∧
      (runEvents HookState.init evs).hold.latched i = false) ∨
     ((runEvents HookState.init evs).hold.active i = true ∧
      (runEvents HookState.init evs).hold.latched i = false) ∨
     ((runEvents HookState.init evs).hold.active i = false ∧
      (runEvents HookState.init evs).hold.latched i = true)) := by
  have hex : (runEvents HookState.init evs).hold.Exclusive := by
    induction evs using List.reverseRecOn with
    | nil => exact exclusive_init
    | append_singleton pre ev ih =>
      simp only [runEvents, List.foldl_append, List.foldl_cons, List.foldl_nil] at ih ⊢
      cases ev with
      | poll prefs alive o => exact exclusive_tick prefs o _ ih
      | reset idx => exact exclusive_resetMeter idx _ ih
  have hi := hex i
  refine ⟨hi, ?_⟩
  cases ha : (runEvents HookState.init evs).hold.active i <;>
    cases hl : (runEvents HookState.init evs).hold.latched i <;> simp_all

/-! ## Reflected power and the scenario -/

/-- C14: normalisation evaluated on a payload without any reflected field and on a
payload whose reflected arrays hold only non-numeric entries. Both give the
same reflected arrays, four `null` entries each, and `hasReflected` is true
for both; it is true for the snapshot of every payload, since `norm4` returns
an array even when its argument is `undefined`. -/
theorem reflected_absent_not_distinguished :
    JSVal.getProp (JSVal.getProp noReflectedPayload "values") "rfdAvgWatts" = JSVal.undefined ∧
    norm4 JSVal.num JSVal.undefined JSVal.null
      = [JSVal.null, JSVal.null, JSVal.null, JSVal.null] ∧
    (normalize noReflectedPayload).values.rfdAvgWatts = [none, none, none, none] ∧
    (normalize noReflectedPayload).values.rfdPeakWatts = [none, none, none, none] ∧
    (normalize invalidReflectedPayload).values.rfdAvgWatts = [none, none, none, none] ∧
    (normalize invalidReflectedPayload).values.rfdPeakWatts = [none, none, none, none] ∧
    hasReflected (some (normalize noReflectedPayload).values) = true ∧
    hasReflected (some (normalize invalidReflectedPayload).values) = true ∧
    (∀ j, hasReflected (some (normalize j).values) = true) := by
  refine ⟨rfl, rfl, rfl, rfl, rfl, rfl, rfl, rfl, ?_⟩
  intro j
  rfl

/-- C13: the pipeline (normalise, hold step, SWR display latch) from the initial
state on channel 0 with threshold 1 W and hold enabled, on the averages
`[0, 5, 5, 0, 0]` and the SWR readings `[absent, 1.8, 2.1, absent, absent]`.
The displayed SWR is `-1` (unknown: tone `'muted'`), 1.8, 2.1, 2.1, 2.1;
channel 0 is latched at samples 4 and 5 and not before; the captured maximum
is 2.1 from sample 3 onward. -/
theorem scenario_pipeline :
    holdOnPrefs.holdEnabled = true ∧
    effThreshold holdOnPrefs.rfThresholdWatts = JSNum.fin 1 ∧
    pipelineTrace holdOnPrefs 0 scenarioPayloads =
      [(false, JSNum.fin 0, JSNum.fin (-1)),
       (false, JSNum.fin (mkRat 18 10), JSNum.fin (mkRat 18 10)),
       (false, JSNum.fin (mkRat 21 10), JSNum.fin (mkRat 21 10)),
       (true, JSNum.fin (mkRat 21 10), JSNum.fin (mkRat 21 10)),
       (true, JSNum.fin (mkRat 21 10), JSNum.fin (mkRat 21 10))] ∧
    (pipelineTrace holdOnPrefs 0 scenarioPayloads).map (fun r => r.2.2) =
      [JSNum.fin (-1), JSNum.fin (mkRat 18 10), JSNum.fin (mkRat 21 10),
       JSNum.fin (mkRat 21 10), JSNum.fin (mkRat 21 10)] ∧
    (pipelineTrace holdOnPrefs 0 scenarioPayloads).map (fun r => r.1) =
      [false, false, false, true, true] ∧
    ((pipelineTrace holdOnPrefs 0 scenarioPayloads).drop 2).map (fun r => r.2.1) =
      [JSNum.fin (mkRat 21 10), JSNum.fin (mkRat 21 10), JSNum.fin (mkRat 21 10)] ∧
    swrTone (JSVal.num (JSNum.fin (-1))) none = "muted" ∧
    (mkRat 18 10 : ℚ) = 18 / 10 ∧ (mkRat 21 10 : ℚ) = 21 / 10 := by
  refine ⟨rfl, by decide, by decide, by decide, by decide, by decide, by decide, ?_, ?_⟩
  · rw [Rat.mkRat_eq_div]; norm_num
  · rw [Rat.mkRat_eq_div]; norm_num

/-! ## The SWR display latch -/

theorem swrActive_raw (values : Option Values) (idx : Fin 4)
    (h : swrActive values idx = true) : ∃ r, rawSWR values idx = JSNum.fin r ∧ 1 ≤ r := by
  simp only [swrActive, Bool.and_eq_true] at h
  obtain ⟨⟨_, hfin⟩, hge⟩ := h
  cases hr : rawSWR values idx with
  | fin r =>
    rw [hr] at hge
    exact ⟨r, rfl, by simpa [JSNum.ge, JSNum.le] using hge⟩
  | nan => rw [hr] at hfin; simp [JSNum.isFinite] at hfin
  | pinf => rw [hr] at hfin; simp [JSNum.isFinite] at hfin
  | ninf => rw [hr] at hfin; simp [JSNum.isFinite] at hfin

theorem swrActive_iff (values : Option Values) (idx : Fin 4) :
    swrActive values idx = true ↔
      ∃ f r, fwdPower values idx = JSNum.fin f ∧ 2 ≤ f ∧
        rawSWR values idx = JSNum.fin r ∧ 1 ≤ r := by
  simp only [swrActive, Bool.and_eq_true]
  cases hf : fwdPower values idx <;> cases hr : rawSWR values idx <;>
    simp [JSNum.isFinite, JSNum.ge, JSNum.le]

theorem orZero_fin (m : ℚ) (hm : 1 ≤ m) : orZero (JSNum.fin m) = JSNum.fin m := by
  have : m ≠ 0 := by
    intro h; rw [h] at hm; norm_num at hm
  simp [orZero, JSNum.truthy, this]

theorem meterCard_wasActive (he : Bool) (values : Option Values) (idx : Fin 4) (st : SwrLatch) :
    (meterCardSwr he values idx st).1.wasActive idx = swrActive values idx := by
  simp only [meterCardSwr]
  split_ifs <;> simp

theorem meterCard_start (values : Option Values) (idx : Fin 4) (st : SwrLatch) (r : ℚ)
    (hact : swrActive values idx = true) (hw : st.wasActive idx = false)
    (hr : rawSWR values idx = JSNum.fin r) (h1 : 1 ≤ r) :
    (meterCardSwr true values idx st).1.hold idx = JSNum.fin r ∧
    (meterCardSwr true values idx st).2 = JSNum.fin r := by
  have h0 : orZero (JSNum.fin 0) = JSNum.fin 0 := by decide
  have hmax : max (0 : ℚ) r = r := max_eq_right (by linarith)
  simp [meterCardSwr, hact, hw, hr, h0, mathMax_fin, hmax]

theorem meterCard_continue (values : Option Values) (idx : Fin 4) (st : SwrLatch) (m r : ℚ)
    (hact : swrActive values idx = true) (hw : st.wasActive idx = true)
    (hm : st.hold idx = JSNum.fin m) (h1m : 1 ≤ m)
    (hr : rawSWR values idx = JSNum.fin r) :
    (meterCardSwr true values idx st).1.hold idx = JSNum.fin (max m r) ∧
    (meterCardSwr true values idx st).2 = JSNum.fin (max m r) := by
  simp [meterCardSwr, hact, hw, hr, hm, orZero_fin m h1m, mathMax_fin]

theorem meterCard_gap (values : Option Values) (idx : Fin 4) (st : SwrLatch) (m : ℚ)
    (hact : swrActive values idx = false) (hm : st.hold idx = JSNum.fin m) (h1m : 1 ≤ m) :
    (meterCardSwr true values idx st).1.hold idx = JSNum.fin m ∧
    (meterCardSwr true values idx st).2 = JSNum.fin m := by
  have hpos : (0 : ℚ) < m := by linarith
  simp [meterCardSwr, hact, hm, orZero_fin m h1m, JSNum.gt, JSNum.lt, hpos]

theorem renderAll_snoc (he : Bool) (idx : Fin 4) (st : SwrLatch) (xs : List (Option Values))
    (x : Option Values) :
    renderAll he idx st (xs ++ [x]) =
      ((meterCardSwr he x idx (renderAll he idx st xs).1).1,
       some (meterCardSwr he x idx (renderAll he idx st xs).1).2) := by
  simp [renderAll, List.foldl_append]

/-- After an unbroken run of valid renders that starts with the latch not active,
the captured maximum and the displayed SWR are the largest SWR of the run. -/
theorem render_valid_run (idx : Fin 4) (pre : List (Option Values))
    (hw0 : (renderAll true idx SwrLatch.init pre).1.wasActive idx = false)
    (run : List (Option Values)) (hne : run ≠ [])
    (hv : ∀ x ∈ run, swrActive x idx = true) :
    ∃ m, 1 ≤ m ∧ (∃ x ∈ run, rawSWR x idx = JSNum.fin m) ∧
      (∀ x ∈ run, ∃ r, rawSWR x idx = JSNum.fin r ∧ r ≤ m) ∧
      (renderAll true idx SwrLatch.init (pre ++ run)).1.hold idx = JSNum.fin m ∧
      (renderAll true idx SwrLatch.init (pre ++ run)).2 = some (JSNum.fin m) ∧
      (renderAll true idx SwrLatch.init (pre ++ run)).1.wasActive idx = true := by
  induction run using List.reverseRecOn with
  | nil => exact absurd rfl hne
  | append_singleton run x ih =>
    have hx : swrActive x idx = true := hv x (by simp)
    obtain ⟨r, hr, h1r⟩ := swrActive_raw x idx hx
    rw [← List.append_assoc, renderAll_snoc]
    by_cases hrun : run = []
    · subst hrun
      rw [List.append_nil]
      have hs := meterCard_start x idx (renderAll true idx SwrLatch.init pre).1 r hx hw0 hr h1r
      refine ⟨r, h1r, ⟨x, by simp, hr⟩, ?_, hs.1, by rw [hs.2], ?_⟩
      · intro y hy
        simp only [List.nil_append, List.mem_singleton] at hy
        subst hy
        exact ⟨r, hr, le_refl r⟩
      · rw [meterCard_wasActive]; exact hx
    · obtain ⟨m, h1m, ⟨y, hy, hym⟩, hall, hhold, _, hwas⟩ :=
        ih hrun (fun y hy => hv y (by simp [hy]))
      have hs := meterCard_continue x idx
        (renderAll true idx SwrLatch.init (pre ++ run)).1 m r hx hwas hhold h1m hr
      refine ⟨max m r, le_trans h1m (le_max_left _ _), ?_, ?_, hs.1, by rw [hs.2], ?_⟩
      · by_cases hmr : m ≤ r
        · exact ⟨x, by simp, by rw [hr, max_eq_right hmr]⟩
        · exact ⟨y, by simp [hy], by rw [hym, max_eq_left (le_of_lt (not_le.1 hmr))]⟩
      · intro z hz
        rcases List.mem_append.1 hz with hz | hz
        · obtain ⟨rz, hrz, hle⟩ := hall z hz
          exact ⟨rz, hrz, le_trans hle (le_max_left _ _)⟩
        · simp only [List.mem_singleton] at hz
          subst hz
          exact ⟨r, hr, le_max_right _ _⟩
      · rw [meterCard_wasActive]; exact hx

/-- Renders of invalid snapshots keep the captured maximum and keep displaying it. -/
theorem render_gap (idx : Fin 4) (xs : List (Option Values)) (m : ℚ) (h1m : 1 ≤ m)
    (hhold : (renderAll true idx SwrLatch.init xs).1.hold idx = JSNum.fin m)
    (hdisp : (renderAll true idx SwrLatch.init xs).2 = some (JSNum.fin m))
    (gap : List (Option Values)) (hg : ∀ x ∈ gap, swrActive x idx = false) :
    (renderAll true idx SwrLatch.init (xs ++ gap)).1.hold idx = JSNum.fin m ∧
    (renderAll true idx SwrLatch.init (xs ++ gap)).2 = some (JSNum.fin m) := by
  induction gap using List.reverseRecOn with
  | nil => rw [List.append_nil]; exact ⟨hhold, hdisp⟩
  | append_singleton gap x ih =>
    have hx : swrActive x idx = false := hg x (by simp)
    obtain ⟨ih1, _⟩ := ih (fun y hy => hg y (by simp [hy]))
    rw [← List.append_assoc, renderAll_snoc]
    have hs := meterCard_gap x idx (renderAll true idx SwrLatch.init (xs ++ gap)).1 m hx ih1 h1m
    exact ⟨hs.1, by rw [hs.2]⟩

/-- C12: with hold enabled throughout and no reset, let the snapshots rendered for
channel `idx` from the initial refs be `pre ++ run ++ gap`, where `run` is a
non-empty unbroken run of valid snapshots that begins at an invalid-to-valid
transition (`pre` is empty or ends with an invalid snapshot) and `gap` holds
only invalid snapshots. Then the displayed SWR of the last render and the
captured maximum are the maximum SWR of `run`: with `gap` empty the last
snapshot is valid and `run` is the current run; with `gap` non-empty the last
snapshot is invalid and `run` is the most recent valid run. Valid means
`swrActive`: forward power a finite number `>= 2` and SWR a finite number
`>= 1`. -/
theorem swr_latch_shows_run_maximum (idx : Fin 4) (pre run gap : List (Option Values))
    (hpre : pre = [] ∨ ∃ pre0 x, pre = pre0 ++ [x] ∧ swrActive x idx = false)
    (hne : run ≠ []) (hv : ∀ x ∈ run, swrActive x idx = true)
    (hg : ∀ x ∈ gap, swrActive x idx = false) :
    (∃ m, (∃ x ∈ run, rawSWR x idx = JSNum.fin m) ∧
      (∀ x ∈ run, ∃ r, rawSWR x idx = JSNum.fin r ∧ r ≤ m) ∧
      (renderAll true idx SwrLatch.init (pre ++ run ++ gap)).2 = some (JSNum.fin m) ∧
      (renderAll true idx SwrLatch.init (pre ++ run ++ gap)).1.hold idx = JSNum.fin m) ∧
    (∀ x, swrActive x idx = true ↔
      ∃ f r, fwdPower x idx = JSNum.fin f ∧ 2 ≤ f ∧ rawSWR x idx = JSNum.fin r ∧ 1 ≤ r) := by
  have hw0 : (renderAll true idx SwrLatch.init pre).1.wasActive idx = false := by
    rcases hpre with h | ⟨pre0, x, h, hx⟩
    · subst h; rfl
    · subst h
      rw [renderAll_snoc, meterCard_wasActive]
      exact hx
  obtain ⟨m, h1m, hatt, hall, hhold, hdisp, _⟩ := render_valid_run idx pre hw0 run hne hv
  obtain ⟨g1, g2⟩ := render_gap idx (pre ++ run) m h1m hhold hdisp gap hg
  exact ⟨⟨m, hatt, hall, g2, g1⟩, fun x => swrActive_iff x idx⟩

theorem swr_latch_shows_run_maximum_witness :
    (∀ x ∈ latchRenders.drop 1 |>.take 2, swrActive x 0 = true) ∧
    (∀ x ∈ latchRenders.drop 3, swrActive x 0 = false) ∧
    (renderAll true 0 SwrLatch.init latchRenders).2 = some (JSNum.fin 3) ∧
    ∃ m, (∃ x ∈ latchRenders.drop 1 |>.take 2, rawSWR x 0 = JSNum.fin m) ∧
      (∀ x ∈ latchRenders.drop 1 |>.take 2, ∃ r, rawSWR x 0 = JSNum.fin r ∧ r ≤ m) ∧
      (renderAll true 0 SwrLatch.init
        (latchRenders.take 1 ++ (latchRenders.drop 1 |>.take 2) ++ latchRenders.drop 3)).2
        = some (JSNum.fin m) ∧
      (renderAll true 0 SwrLatch.init
        (latchRenders.take 1 ++ (latchRenders.drop 1 |>.take 2) ++ latchRenders.drop 3)).1.hold 0
        = JSNum.fin m :=
  ⟨by decide, by decide, by decide,
    (swr_latch_shows_run_maximum 0 (latchRenders.take 1) (latchRenders.drop 1 |>.take 2)
      (latchRenders.drop 3)
      (Or.inr ⟨[], some (normalize (samplePayload 0 none)).values, rfl, by decide⟩)
      (by simp [latchRenders]) (by decide) (by decide)).1⟩

end WaveNode
